import Mathlib

/-!
# Verification of the router_cli core data structures and forwarding pipeline

Shallow embedding of the core of the `router_cli` simulator:

* `RTree` / `AVLTree`      — `AVLNode` / `AVLTree` from `data_structures.py`
  (the route index keyed by `(prefix, mask, metric)`);
* `TrieNode`               — the policy trie from `data_structures.py`;
* `BTreeNode` / `BTree`    — the snapshot index from `data_structures.py`;
* `Packet`, `Iface`, `NDevice`, `Net` — `packet.py` and `device.py`
  (object references are modelled as indices into explicit lists, and
  the shared mutable `Packet` objects live in a central `Net.packets`
  heap so that aliasing of one packet across several queues is kept).

Python `int` values that stay non-negative are modelled as `Nat`; the
packet TTL may go negative and is an `Int`.  Python strings are `String`
(both orders are lexicographic on code points).  Fallible operations
(Python code that can raise `IndexError`) return `Option`.
-/

namespace RouterCli

/-! ## Dotted-quad helpers

`ip.split('.')` and `int(x)` from `data_structures.py`.  `splitDots`
models Python `str.split('.')`; `digitsToNat` models `int` on a decimal
digit string (the CLI boundary guarantees well-formed four-octet
strings, cf. spec §7, so octets are plain digit runs).
-/

/-- Lexicographic code-point comparison of character lists, the order
Python uses on `str`.  (Lean's builtin `String.lt` has the same
semantics but its decision procedure does not reduce in the kernel, so
we spell out the comparison.) -/
def strLtAux : List Char → List Char → Bool
  | [], [] => false
  | [], _ :: _ => true
  | _ :: _, [] => false
  | a :: as, b :: bs =>
    if a.toNat < b.toNat then true
    else if b.toNat < a.toNat then false
    else strLtAux as bs

/-- Python `s < t` on strings. -/
def strLt (s t : String) : Bool := strLtAux s.data t.data

/-- Split a character list on `'.'`, as Python `str.split('.')` does. -/
def splitDots : List Char → List String
  | [] => [""]
  | c :: cs =>
    if c = '.' then
      "" :: splitDots cs
    else
      match splitDots cs with
      | [] => [String.mk [c]]
      | w :: ws => String.mk (c :: w.data) :: ws

/-- Decimal value of a digit string, as Python `int` on a well-formed octet. -/
def digitsToNat (cs : List Char) : Nat :=
  cs.foldl (fun acc c => 10 * acc + (c.toNat - '0'.toNat)) 0

/-- One octet of a dotted-quad string (`int(x)` in the source). -/
def octet (s : String) : Nat := digitsToNat s.data

/-- `[int(x) for x in ip.split('.')]`. -/
def ip_parts (s : String) : List Nat := (splitDots s.data).map octet

/-- Big-endian `w`-bit representation of `n`, as `format(n, '08b')`
produces for octets when `w = 8`. -/
def bitsBE : Nat → Nat → List Bool
  | 0, _ => []
  | w + 1, n => (n / 2 ^ w % 2 = 1) :: bitsBE w (n % 2 ^ w)

/-- Recombine big-endian bits to a number (used to model Python `&`). -/
def bitsToNat (bs : List Bool) : Nat :=
  bs.foldl (fun acc b => 2 * acc + (if b then 1 else 0)) 0

/-- Bitwise AND of two octet values, modelling Python `a & b` on
values `< 256` (the well-formed octet range). -/
def octAnd (a b : Nat) : Nat :=
  bitsToNat ((bitsBE 8 a).zipWith (· && ·) (bitsBE 8 b))

/-- Popcount of an octet, modelling `bin(m).count('1')` for `m < 256`. -/
def popcount8 (m : Nat) : Nat := ((bitsBE 8 m).filter id).length

/-! ## AVL route index (`AVLNode` / `AVLTree`, data_structures.py 170-426)

The node payload is `(pfx, mask, next_hop, metric)` — `prefix` is a Lean
keyword so the field is called `pfx`.  The `height` field is the stored
balance height exactly as in `AVLNode.__init__` (a fresh node has
height 1).  The per-category rotation counters (`stats`) are
observability-only and are not modelled; no claim mentions them.
-/

inductive RTree where
  | nil : RTree
  | node (pfx mask next_hop : String) (metric : Nat) (height : Nat)
      (left right : RTree) : RTree
deriving DecidableEq

namespace RTree

/-- `AVLTree.get_height`: stored height, 0 for an absent node. -/
def get_height : RTree → Nat
  | .nil => 0
  | .node _ _ _ _ h _ _ => h

/-- Actual height of the tree (not the stored field). -/
def realHeight : RTree → Nat
  | .nil => 0
  | .node _ _ _ _ _ l r => 1 + max (realHeight l) (realHeight r)

/-- Left child (`node.left`, `None` ↦ `nil`). -/
def left : RTree → RTree
  | .nil => .nil
  | .node _ _ _ _ _ l _ => l

/-- Right child. -/
def right : RTree → RTree
  | .nil => .nil
  | .node _ _ _ _ _ _ r => r

/-- `AVLTree.get_balance`: stored-height difference, 0 for an absent node. -/
def get_balance (t : RTree) : Int :=
  (get_height t.left : Int) - (get_height t.right : Int)

/-- `AVLTree.update_height`: recompute the root's stored height from the
children's stored heights. -/
def update_height : RTree → RTree
  | .nil => .nil
  | .node p m nh mt _ l r =>
      .node p m nh mt (1 + max (get_height l) (get_height r)) l r

/-- Ordering key `(prefix, mask, metric)` of the root node.  The Python
code reads `node.left.prefix` etc. only when the child exists; for a
missing child we return a junk key (never reached on balanced trees). -/
def rootKey : RTree → String × String × Nat
  | .nil => ("", "", 0)
  | .node p m _ mt _ _ _ => (p, m, mt)

end RTree

/-- `AVLTree._compare_routes` (data_structures.py 258-267). -/
def compare_routes (r1 r2 : String × String × Nat) : Int :=
  if r1.1 ≠ r2.1 then (if strLt r1.1 r2.1 then -1 else 1)
  else if r1.2.1 ≠ r2.2.1 then (if strLt r1.2.1 r2.2.1 then -1 else 1)
  else if r1.2.2 < r2.2.2 then -1 else if r2.2.2 < r1.2.2 then 1 else 0

namespace RTree

/-- `AVLTree.rotate_right` (LL rotation, data_structures.py 218-230). -/
def rotate_right : RTree → RTree
  | .node zp zm znh zmt zh (.node yp ym ynh ymt yh yl yr) r =>
      let z' := update_height (.node zp zm znh zmt zh yr r)
      update_height (.node yp ym ynh ymt yh yl z')
  | t => t

/-- `AVLTree.rotate_left` (RR rotation, data_structures.py 232-244). -/
def rotate_left : RTree → RTree
  | .node zp zm znh zmt zh l (.node yp ym ynh ymt yh yl yr) =>
      let z' := update_height (.node zp zm znh zmt zh l yl)
      update_height (.node yp ym ynh ymt yh z' yr)
  | t => t

/-- `AVLTree.rotate_left_right` (LR, data_structures.py 246-250). -/
def rotate_left_right : RTree → RTree
  | .node p m nh mt h l r => rotate_right (.node p m nh mt h (rotate_left l) r)
  | t => t

/-- `AVLTree.rotate_right_left` (RL, data_structures.py 252-256). -/
def rotate_right_left : RTree → RTree
  | .node p m nh mt h l r => rotate_left (.node p m nh mt h l (rotate_right r))
  | t => t

/-- The four rebalancing checks at the end of `AVLTree._insert_node`
(data_structures.py 290-305): the node's height has just been updated,
and the rotation is chosen by comparing the inserted key with the
updated child's key. -/
def insert_rebal (k : String × String × Nat) (t : RTree) : RTree :=
  let bal := get_balance t
  if bal > 1 ∧ compare_routes k t.left.rootKey < 0 then rotate_right t
  else if bal < -1 ∧ 0 < compare_routes k t.right.rootKey then rotate_left t
  else if bal > 1 ∧ 0 < compare_routes k t.left.rootKey then rotate_left_right t
  else if bal < -1 ∧ compare_routes k t.right.rootKey < 0 then rotate_right_left t
  else t

/-- `AVLTree._insert_node` (data_structures.py 274-305).  On an exact
key match the node's `next_hop` and `metric` are overwritten in place. -/
def insert_node (t : RTree) (p m nh : String) (mt : Nat) : RTree :=
  match t with
  | .nil => .node p m nh mt 1 .nil .nil
  | .node np nm nnh nmt h l r =>
    let c := compare_routes (p, m, mt) (np, nm, nmt)
    if c < 0 then
      insert_rebal (p, m, mt)
        (update_height (.node np nm nnh nmt h (insert_node l p m nh mt) r))
    else if 0 < c then
      insert_rebal (p, m, mt)
        (update_height (.node np nm nnh nmt h l (insert_node r p m nh mt)))
    else
      .node np nm nh mt h l r

/-- The rebalancing checks at the end of `AVLTree._delete_node`
(data_structures.py 336-349): chosen by the child's balance factor. -/
def delete_rebal (t : RTree) : RTree :=
  let bal := get_balance t
  if bal > 1 ∧ 0 ≤ get_balance t.left then rotate_right t
  else if bal > 1 ∧ get_balance t.left < 0 then rotate_left_right t
  else if bal < -1 ∧ get_balance t.right ≤ 0 then rotate_left t
  else if bal < -1 ∧ 0 < get_balance t.right then rotate_right_left t
  else t

/-- `AVLTree._find_min` payload (data_structures.py 353-357). -/
def find_min : RTree → String × String × String × Nat
  | .nil => ("", "", "", 0)
  | .node p m nh mt _ .nil _ => (p, m, nh, mt)
  | .node _ _ _ _ _ (.node lp lm lnh lmt lh ll lr) _ =>
      find_min (.node lp lm lnh lmt lh ll lr)

/-- `AVLTree._delete_node` (data_structures.py 312-351).  The search key
is compared with the metric pinned to 0 on both sides, so the metric is
ignored.  The two-child case copies the in-order successor's payload
into the node and deletes the successor from the right subtree. -/
def delete_node : RTree → String → String → RTree
  | .nil, _, _ => .nil
  | .node np nm nnh nmt h l r, p, m =>
    let c := compare_routes (p, m, 0) (np, nm, 0)
    if c < 0 then
      delete_rebal (update_height (.node np nm nnh nmt h (delete_node l p m) r))
    else if 0 < c then
      delete_rebal (update_height (.node np nm nnh nmt h l (delete_node r p m)))
    else
      match l with
      | .nil => r
      | .node lp lm lnh lmt lh ll lr =>
        match r with
        | .nil => .node lp lm lnh lmt lh ll lr
        | .node _ _ _ _ _ _ _ =>
          let tmp := find_min r
          delete_rebal (update_height
            (.node tmp.1 tmp.2.1 tmp.2.2.1 tmp.2.2.2 h
              (.node lp lm lnh lmt lh ll lr) (delete_node r tmp.1 tmp.2.1)))

end RTree

/-- `AVLTree._ip_in_network` (data_structures.py 380-389). -/
def ip_in_network (ip network mask : String) : Bool :=
  let ips := ip_parts ip
  let nets := ip_parts network
  let masks := ip_parts mask
  (List.range 4).all fun i =>
    octAnd (ips.getD i 0) (masks.getD i 0) = octAnd (nets.getD i 0) (masks.getD i 0)

/-- Payload of a route node (what `lookup` hands back to callers). -/
structure RouteEntry where
  pfx : String
  mask : String
  next_hop : String
  metric : Nat
deriving DecidableEq

namespace RTree

/-- `AVLTree._lookup_node` (data_structures.py 363-378): containment
search with right-subtree precedence; on a non-containing node the
descent follows the lexicographic comparison of the raw address string
with the node's prefix string. -/
def lookup_node : RTree → String → Option RouteEntry
  | .nil, _ => none
  | .node p m nh mt _ l r, dest_ip =>
    if ip_in_network dest_ip p m then
      match lookup_node r dest_ip with
      | some e => some e
      | none => some ⟨p, m, nh, mt⟩
    else if strLt dest_ip p then
      lookup_node l dest_ip
    else
      lookup_node r dest_ip

/-- `AVLTree.in_order_traversal` (payloads in tree order). -/
def in_order : RTree → List RouteEntry
  | .nil => []
  | .node p m nh mt _ l r => in_order l ++ [⟨p, m, nh, mt⟩] ++ in_order r

end RTree

/-- `AVLTree` object state: root plus the `size` counter
(data_structures.py 189-199; rotation counters omitted). -/
structure AVLTree where
  root : RTree
  size : Nat
deriving DecidableEq

/-- A fresh `AVLTree()`. -/
def AVLTree.empty : AVLTree := ⟨.nil, 0⟩

/-- `AVLTree.insert` (data_structures.py 269-272): the size counter is
incremented unconditionally, also on an in-place overwrite. -/
def AVLTree.insert (t : AVLTree) (p m nh : String) (mt : Nat) : AVLTree :=
  ⟨t.root.insert_node p m nh mt, t.size + 1⟩

/-- `AVLTree.delete` (data_structures.py 307-310):
`size = max(0, size - 1)` unconditionally (truncated subtraction). -/
def AVLTree.delete (t : AVLTree) (p m : String) : AVLTree :=
  ⟨t.root.delete_node p m, t.size - 1⟩

/-- `AVLTree.lookup` (data_structures.py 359-361). -/
def AVLTree.lookup (t : AVLTree) (dest_ip : String) : Option RouteEntry :=
  t.root.lookup_node dest_ip

/-- The AVL invariant of claim C3: at every node the stored height
equals `1 + max(height(left), height(right))` (0 for an absent child)
and the children's heights differ by at most one. -/
def RTree.Avl : RTree → Prop
  | .nil => True
  | .node _ _ _ _ h l r =>
    Avl l ∧ Avl r ∧ h = 1 + max (realHeight l) (realHeight r) ∧
      realHeight l ≤ realHeight r + 1 ∧ realHeight r ≤ realHeight l + 1

def RTree.decAvl : (t : RTree) → Decidable t.Avl
  | .nil => isTrue trivial
  | .node _ _ _ _ h l r =>
    letI := decAvl l
    letI := decAvl r
    decidable_of_iff
      (Avl l ∧ Avl r ∧ h = 1 + max (realHeight l) (realHeight r) ∧
        realHeight l ≤ realHeight r + 1 ∧ realHeight r ≤ realHeight l + 1)
      Iff.rfl

instance (t : RTree) : Decidable t.Avl := t.decAvl

/-- Some node of the tree carries exactly this `(prefix, mask)` pair
(the pair `AVLTree.delete` searches for). -/
def RTree.containsPM : RTree → String → String → Bool
  | .nil, _, _ => false
  | .node np nm _ _ _ l r, p, m =>
    (np == p && nm == m) || containsPM l p m || containsPM r p m

/-- One administrative operation on the route index. -/
inductive RouteOp where
  | ins (p m nh : String) (mt : Nat) : RouteOp
  | del (p m : String) : RouteOp

def applyRouteOp (t : AVLTree) : RouteOp → AVLTree
  | .ins p m nh mt => t.insert p m nh mt
  | .del p m => t.delete p m

/-- Run a sequence of inserts/deletes. -/
def applyRouteOps : AVLTree → List RouteOp → AVLTree
  | t, [] => t
  | t, op :: ops => applyRouteOps (applyRouteOp t op) ops

/-! ## Policy trie (`TrieNode` / `Trie`, data_structures.py 550-642)

The children dictionary is keyed by the bit characters `'0'`/`'1'`
(produced by `format(_, '08b')`), modelled as two optional children
(`false` ↦ `'0'`, `true` ↦ `'1'`).  Policy values are heterogeneous
Python values (`3`, `True`); the policy mapping is a Python dict,
modelled as an association list with insert-or-overwrite update, which
preserves the dict's insertion order.  `route_info` is never used by
the core and is omitted.  `is_end_of_prefix` is called `is_end`. -/

/-- A policy value: the recognized kinds hold an int (`ttl-min`) or a
bool (`block`). -/
inductive PVal where
  | int (n : Int) : PVal
  | bool (b : Bool) : PVal
deriving DecidableEq

/-- Python `int(v)` coercion used when a policy value meets an integer
comparison (`bool` is an `int` subtype in Python: `True = 1`). -/
def PVal.toInt : PVal → Int
  | .int n => n
  | .bool b => if b then 1 else 0

/-- A policy mapping: Python dict as insertion-ordered association list. -/
abbrev PolicyMap := List (String × PVal)

/-- Python `d[k] = v`: overwrite in place if present, else append. -/
def dictSet (d : PolicyMap) (k : String) (v : PVal) : PolicyMap :=
  if d.any (fun kv => kv.1 = k) then
    d.map (fun kv => if kv.1 = k then (k, v) else kv)
  else d ++ [(k, v)]

/-- Python `d.update(src)`: set every binding of `src` in order. -/
def dictUpdate (d src : PolicyMap) : PolicyMap :=
  src.foldl (fun acc kv => dictSet acc kv.1 kv.2) d

/-- Python `k in d` / `d[k]`. -/
def dictGet (d : PolicyMap) (k : String) : Option PVal :=
  (d.find? (fun kv => kv.1 = k)).map (fun kv => kv.2)

/-- `TrieNode` (data_structures.py 550-556). -/
inductive TrieNode where
  | mk (child0 child1 : Option TrieNode) ( is_end : Bool) (policies : PolicyMap)

namespace TrieNode

/-- A fresh `TrieNode()`. -/
def empty : TrieNode := .mk none none false []

def child (n : TrieNode) (b : Bool) : Option TrieNode :=
  match n with
  | .mk c0 c1 _ _ => if b then c1 else c0

def policies : TrieNode → PolicyMap
  | .mk _ _ _ ps => ps

def is_end : TrieNode → Bool
  | .mk _ _ e _ => e

end TrieNode

/-- `Trie._prefix_to_bits` (data_structures.py 577-589): for each of the
four octets, AND with the mask octet, format as 8 big-endian bits, keep
the first `popcount(mask octet)` of them. -/
def prefix_to_bits (p mask : String) : List Bool :=
  let ips := ip_parts p
  let masks := ip_parts mask
  ((List.range 4).map fun i =>
    (bitsBE 8 (octAnd (ips.getD i 0) (masks.getD i 0))).take
      (popcount8 (masks.getD i 0))).flatten

/-- `Trie._ip_to_bits` (data_structures.py 607-613). -/
def ip_to_bits (ip : String) : List Bool :=
  ((ip_parts ip).map (bitsBE 8)).flatten

/-- Descend/create the path for the given bits and mark/merge at its
end; shared shape of `Trie.insert_prefix` and `Trie.set_policy`
(data_structures.py 563-575 and 615-626).  `upd` is what happens to the
final node's policy dict. -/
def setAlongBits (upd : PolicyMap → PolicyMap) : TrieNode → List Bool → TrieNode
  | .mk c0 c1 _ ps, [] => .mk c0 c1 true (upd ps)
  | .mk c0 c1 e ps, b :: bs =>
    if b then
      .mk c0 (some (setAlongBits upd ((c1.getD .empty)) bs)) e ps
    else
      .mk (some (setAlongBits upd ((c0.getD .empty)) bs)) c1 e ps

/-- `Trie.set_policy` (data_structures.py 615-626). -/
def TrieNode.set_policy (root : TrieNode) (p mask policy_type : String)
    (policy_value : PVal) : TrieNode :=
  setAlongBits (fun ps => dictSet ps policy_type policy_value) root
    (prefix_to_bits p mask)

/-- `Trie.insert_prefix` (data_structures.py 563-575). -/
def TrieNode.insertPfx (root : TrieNode) (p mask : String)
    (pols : PolicyMap) : TrieNode :=
  setAlongBits (fun ps => dictUpdate ps pols) root (prefix_to_bits p mask)

/-- Walk of `Trie.get_inherited_policies` (data_structures.py 628-642):
follow the address bits, merging the policies of every terminal node
passed; stop at the first missing child. -/
def inheritedAux : TrieNode → List Bool → PolicyMap → PolicyMap
  | _, [], acc => acc
  | n, b :: bs, acc =>
    match n.child b with
    | none => acc
    | some c =>
      inheritedAux c bs (if c.is_end then dictUpdate acc c.policies else acc)

/-- `Trie.get_inherited_policies`. -/
def TrieNode.get_inherited_policies (root : TrieNode) (ip : String) : PolicyMap :=
  inheritedAux root (ip_to_bits ip) []

/-- Walk of `Trie.longest_prefix_match` (data_structures.py 591-605). -/
def longestAux : TrieNode → List Bool → Option TrieNode → Option TrieNode
  | _, [], last => last
  | n, b :: bs, last =>
    match n.child b with
    | none => last
    | some c => longestAux c bs (if c.is_end then some c else last)

/-- `Trie.longest_prefix_match`. -/
def TrieNode.longest_prefix_match (root : TrieNode) (ip : String) :
    Option TrieNode :=
  longestAux root (ip_to_bits ip) none

/-! ## Snapshot index (`BTreeNode` / `BTree`, data_structures.py 428-548)

Keys are strings (snapshot names); the value payload is opaque to every
algorithm and is modelled as `Nat` so that distinct entries with equal
keys can be told apart.  The `parent` back-pointers are written but
never read by search/insert/traversal and are omitted.

Python list indexing raises `IndexError` out of range, so the reads
that can actually go out of range return `Option` and the fallible
operations return `Option` overall (`none` = the Python call raises).
In particular `_split_child` first truncates `full_child.keys` to its
first `mid_index` elements (line 518) and only afterwards reads
`full_child.keys[mid_index]` (line 528) — an index that is always out
of range, so every split attempt raises `IndexError`
(`split_child_eq_none` below). -/

inductive BTreeNode where
  | mk (keys : List String) (values : List Nat) (children : List BTreeNode)
      ( is_leaf : Bool)

namespace BTreeNode

def keys : BTreeNode → List String
  | .mk ks _ _ _ => ks

def values : BTreeNode → List Nat
  | .mk _ vs _ _ => vs

def children : BTreeNode → List BTreeNode
  | .mk _ _ cs _ => cs

def keyCount (n : BTreeNode) : Nat := n.keys.length

end BTreeNode

mutual
/-- Node count, used as the termination measure of the insert descent. -/
def bsize : BTreeNode → Nat
  | .mk _ _ cs _ => 1 + bsizeList cs
def bsizeList : List BTreeNode → Nat
  | [] => 0
  | c :: cs => bsize c + bsizeList cs
end

theorem bsize_le_of_mem {c : BTreeNode} :
    ∀ {cs : List BTreeNode}, c ∈ cs → bsize c ≤ bsizeList cs := by
  intro cs h
  induction cs with
  | nil => cases h
  | cons d ds ih =>
    rcases List.mem_cons.mp h with rfl | h'
    · simp [bsizeList]
    · have := ih h'
      simp only [bsizeList]
      omega

theorem bsize_lt_of_mem {c : BTreeNode} {ks : List String} {vs : List Nat}
    {cs : List BTreeNode} {lf : Bool} (h : c ∈ cs) :
    bsize c < bsize (.mk ks vs cs lf) := by
  have := bsize_le_of_mem h
  simp only [bsize]
  omega

/-- Python's right-to-left scan `i = len(keys) - 1; while i >= 0 and
key < keys[i]: i -= 1; i += 1`: the resulting descent/insertion index. -/
def descIdx (ks : List String) (key : String) : Nat :=
  ks.length - (ks.reverse.takeWhile (fun k => strLt key k)).length

mutual
/-- `BTree._search_node` (data_structures.py 453-465): `i` is the
number of leading keys `< key` (the while loop); then either the key
matches at `i`, or the search descends into `children[i]`
(out of range only on malformed nodes, where Python would raise). -/
def search_node : BTreeNode → String → Option Nat
  | .mk ks vs cs lf, key =>
    let i := (ks.takeWhile (fun k => strLt k key)).length
    if i < ks.length ∧ ks.getD i "" = key then some (vs.getD i 0)
    else if lf then none
    else searchChild cs i key
/-- The `node.children[i]` descent of `_search_node`. -/
def searchChild : List BTreeNode → Nat → String → Option Nat
  | [], _, _ => none
  | c :: _, 0, key => search_node c key
  | _ :: cs, i + 1, key => searchChild cs i key
end

/-- `BTree._split_child` (data_structures.py 506-531).  The final reads
`full_child.keys[mid_index]` / `full_child.values[mid_index]` happen
after both lists were truncated to `mid_index` elements, so they are
always out of range: the Python method always raises `IndexError`.
(The stats/partial-mutation side effects that precede the raise are
swallowed together with the exception by the caller and not modelled.) -/
def split_child (order : Nat) (parent : BTreeNode) (index : Nat) :
    Option BTreeNode :=
  match parent with
  | .mk ks vs cs lf =>
    match cs.get? index with
    | none => none
    | some (.mk fk fv fc flf) =>
      let mid := order - 1
      let newKeys := fk.drop (mid + 1)
      let newVals := fv.drop (mid + 1)
      let fk' := fk.take mid
      let fv' := fv.take mid
      let newCh := if flf then [] else fc.drop (mid + 1)
      let fc' := if flf then fc else fc.take (mid + 1)
      let newChild : BTreeNode := .mk newKeys newVals newCh flf
      let fullChild' : BTreeNode := .mk fk' fv' fc' flf
      match fk'.get? mid, fv'.get? mid with
      | some medk, some medv =>
          some (.mk (ks.insertIdx index medk) (vs.insertIdx index medv)
            ((cs.set index fullChild').insertIdx (index + 1) newChild) lf)
      | _, _ => none

/-- Every split attempt raises: the median is read from the truncated
key list (`(take mid).get? mid` is always `none`). -/
theorem split_child_eq_none (order : Nat) (parent : BTreeNode) (index : Nat) :
    split_child order parent index = none := by
  rcases parent with ⟨ks, vs, cs, lf⟩
  rw [split_child]
  rcases h : cs.get? index with _ | ⟨fk, fv, fc, flf⟩
  · rfl
  · have hnone : (fk.take (order - 1)).get? (order - 1) = none := by
      rw [List.get?_eq_none]
      simp only [List.length_take]
      omega
    simp only [hnone]

/-- `BTree._insert_non_full` (data_structures.py 479-504). -/
def insert_non_full (order : Nat) (n : BTreeNode) (key : String)
    (value : Nat) : Option BTreeNode :=
  match n with
  | .mk ks vs cs lf =>
    if lf then
      let i := descIdx ks key
      some (.mk (ks.insertIdx i key) (vs.insertIdx i value) cs lf)
    else
      let i := descIdx ks key
      match hc : cs.get? i with
      | none => none
      | some c =>
        if c.keyCount = 2 * order - 1 then
          match hs : split_child order (.mk ks vs cs lf) i with
          | none => none
          | some p2 =>
            match p2 with
            | .mk ks2 vs2 cs2 lf2 =>
              let i2 := if strLt (ks2.getD i "") key then i + 1 else i
              match cs2.get? i2 with
              | none => none
              | some c2 =>
                match insert_non_full order c2 key value with
                | none => none
                | some c2' => some (.mk ks2 vs2 (cs2.set i2 c2') lf2)
        else
          match insert_non_full order c key value with
          | none => none
          | some c' => some (.mk ks vs (cs.set i c') lf)
termination_by bsize n
decreasing_by
  · rw [split_child_eq_none] at hs
    exact absurd hs (by simp)
  · exact bsize_lt_of_mem (List.get?_mem hc)

mutual
/-- `BTree._in_order` (data_structures.py 539-548): for each key, first
the child at the same index (when not a leaf), then the `(key, value)`
pair; finally the last child.  Assumes the B-tree shape
`len(children) = len(keys) + 1` on interior nodes (Python raises
otherwise). -/
def in_order_node : BTreeNode → List (String × Nat)
  | .mk ks vs cs lf =>
    if lf then ks.zip vs
    else inOrderPairs (ks.zip vs) cs ++ inOrderLast cs
def inOrderPairs : List (String × Nat) → List BTreeNode → List (String × Nat)
  | [], _ => []
  | _ :: _, [] => []
  | kv :: kvs, c :: cs => in_order_node c ++ [kv] ++ inOrderPairs kvs cs
def inOrderLast : List BTreeNode → List (String × Nat)
  | [] => []
  | [c] => in_order_node c
  | _ :: c :: cs => inOrderLast (c :: cs)
end

/-- `BTree` object state: root, order and the stats counters
(data_structures.py 437-447). -/
structure BTree where
  root : BTreeNode
  order : Nat
  height : Nat
  nodes : Nat
  splits : Nat
  merges : Nat

/-- A fresh `BTree(order)`. -/
def BTree.mkEmpty (order : Nat := 4) : BTree :=
  ⟨.mk [] [] [] true, order, 1, 1, 0, 0⟩

/-- `BTree.search` (data_structures.py 449-451). -/
def BTree.search (t : BTree) (key : String) : Option Nat :=
  search_node t.root key

/-- `BTree.insert` (data_structures.py 467-477): a full root is split
first (that split always raises, see `split_child_eq_none`), then the
standard non-full insert runs.  `none` = the Python call raises
`IndexError`.  A successful insert therefore performed no split, so
the stats are unchanged on the `some` path of the non-full branch. -/
def BTree.insert (t : BTree) (key : String) (value : Nat) : Option BTree :=
  if t.root.keyCount = 2 * t.order - 1 then
    match split_child t.order (.mk [] [] [t.root] false) 0 with
    | none => none
    | some nr =>
      match insert_non_full t.order nr key value with
      | none => none
      | some r' =>
        some ⟨r', t.order, t.height + 1, t.nodes + 1, t.splits + 1, t.merges⟩
  else
    match insert_non_full t.order t.root key value with
    | none => none
    | some r' => some ⟨r', t.order, t.height, t.nodes, t.splits, t.merges⟩

/-- `BTree.in_order_traversal`. -/
def BTree.in_order_traversal (t : BTree) : List (String × Nat) :=
  in_order_node t.root

/-- Insert a list of key/value pairs, propagating a raise. -/
def insertPairs (t : Option BTree) (ps : List (String × Nat)) : Option BTree :=
  ps.foldl (fun acc kv => acc.bind (fun u => u.insert kv.1 kv.2)) t

/-! ## Packets, interfaces, devices (`packet.py`, `device.py`)

Python objects are mutable and shared by reference: one `Packet` can
sit in several queues at once and a mutation through one reference is
seen through all.  The embedding therefore keeps all packets in a
central heap `Net.packets`, queues hold packet ids (`Nat`), and an
interface is addressed by `(device index, interface index)`.

Omitted fields: `Packet.id` (a random uuid), error-log timestamps
(wall-clock I/O), and the per-device `snapshot_index`/statistics that
no forwarding step reads.  Out-of-range ids hit getter defaults where
Python would raise `AttributeError`/`KeyError`; every theorem below
only exercises valid ids. -/

/-- `Packet` (packet.py 10-29) without the random uuid `id`. -/
structure Packet where
  source_ip : String
  destination_ip : String
  content : String
  ttl : Int
  original_ttl : Int
  route_trace : List String
  delivered : Bool
  dropped : Bool
  drop_reason : Option String
deriving DecidableEq

def defaultPacket : Packet := ⟨"", "", "", 0, 0, [], false, false, none⟩

/-- `Interface` (device.py 8-25): state fields only; the owning device
and connected interfaces are kept as indices.  Queues are FIFO with the
front at the head. -/
structure Iface where
  name : String
  ip_address : Option String
  is_up : Bool
  connected : List (Nat × Nat)
  outgoing : List Nat
  incoming : List Nat
deriving DecidableEq

def defaultIface : Iface := ⟨"", none, false, [], [], []⟩

/-- `Device` (device.py 140-167); `message_history` is the stack of
delivered packet ids, most recent first; `error_log` keeps
`(error_type, message)` pairs. -/
structure NDevice where
  name : String
  device_type : String
  is_online : Bool
  interfaces : List Iface
  message_history : List Nat
  packets_sent : Nat
  packets_received : Nat
  packets_forwarded : Nat
  routing_table : AVLTree
  prefix_trie : TrieNode
  error_log : List (String × String)

def defaultDevice : NDevice :=
  ⟨"", "router", true, [], [], 0, 0, 0, AVLTree.empty, TrieNode.empty, []⟩

/-- The whole simulated network: device registry plus the packet heap. -/
structure Net where
  devices : List NDevice
  packets : List Packet

def Net.dev (s : Net) (d : Nat) : NDevice := s.devices.getD d defaultDevice

def Net.iface (s : Net) (r : Nat × Nat) : Iface :=
  (s.dev r.1).interfaces.getD r.2 defaultIface

def Net.pkt (s : Net) (pid : Nat) : Packet := s.packets.getD pid defaultPacket

def Net.updPkt (s : Net) (pid : Nat) (g : Packet → Packet) : Net :=
  { s with packets := s.packets.set pid (g (s.pkt pid)) }

def Net.updDev (s : Net) (d : Nat) (g : NDevice → NDevice) : Net :=
  { s with devices := s.devices.set d (g (s.dev d)) }

def Net.updIface (s : Net) (d j : Nat) (g : Iface → Iface) : Net :=
  s.updDev d fun dev =>
    { dev with interfaces := dev.interfaces.set j (g (dev.interfaces.getD j defaultIface)) }

/-- `Packet.add_hop` (packet.py 31-33). -/
def add_hop (s : Net) (pid : Nat) (device_name : String) : Net :=
  s.updPkt pid fun p => { p with route_trace := p.route_trace ++ [device_name] }

/-- `Packet.decrement_ttl` (packet.py 35-42): decrement by one; when the
result is ≤ 0, mark dropped with reason `"TTL expired"` and report
`false` (the spec's stylized label for this reason is `ttl-expired`). -/
def decrement_ttl (s : Net) (pid : Nat) : Net × Bool :=
  let p1 := { s.pkt pid with ttl := (s.pkt pid).ttl - 1 }
  if p1.ttl ≤ 0 then
    (s.updPkt pid fun _ => { p1 with dropped := true, drop_reason := some "TTL expired" },
     false)
  else
    (s.updPkt pid fun _ => p1, true)

/-- `Packet.mark_delivered` (packet.py 49-51). -/
def mark_delivered (s : Net) (pid : Nat) : Net :=
  s.updPkt pid fun p => { p with delivered := true }

/-- `Packet.mark_dropped` (packet.py 53-56). -/
def mark_dropped (s : Net) (pid : Nat) (reason : String) : Net :=
  s.updPkt pid fun p => { p with dropped := true, drop_reason := some reason }

/-- `Interface.send_packet` (device.py 65-70). -/
def iface_send_packet (s : Net) (r : Nat × Nat) (pid : Nat) : Net × Bool :=
  if (s.iface r).is_up ∧ (s.dev r.1).is_online then
    (s.updIface r.1 r.2 (fun f => { f with outgoing := f.outgoing ++ [pid] }), true)
  else (s, false)

/-- `Interface.receive_packet` (device.py 72-77). -/
def iface_receive_packet (s : Net) (r : Nat × Nat) (pid : Nat) : Net × Bool :=
  if (s.iface r).is_up ∧ (s.dev r.1).is_online then
    (s.updIface r.1 r.2 (fun f => { f with incoming := f.incoming ++ [pid] }), true)
  else (s, false)

/-- `ErrorLog.log_error` (data_structures.py 708-717) on a device's log;
the timestamp is omitted and the message text is kept approximate (no
claim reads it).  At 1000 entries the oldest is evicted first. -/
def log_error (s : Net) (d : Nat) (error_type msg : String) : Net :=
  s.updDev d fun dev =>
    let es := if 1000 ≤ dev.error_log.length then dev.error_log.tail else dev.error_log
    { dev with error_log := es ++ [(error_type, msg)] }

/-- The broadcast loop of `Interface.process_outgoing_packets`
(device.py 88-99): offer the packet to each connected interface that is
up with an online device; on a successful hand-off, switches and hubs
`continue` to the other neighbors, every other device type `break`s.
Returns the state, whether some hand-off succeeded, and the
`(packet, receiving device name)` events. -/
def broadcastOut (d i pid : Nat) :
    Net → List (Nat × Nat) → Net × Bool × List (Nat × String)
  | s, [] => (s, false, [])
  | s, ref :: refs =>
    if (s.iface ref).is_up ∧ (s.dev ref.1).is_online then
      let res := iface_receive_packet s ref pid
      if res.2 then
        let ev := (pid, (res.1.dev ref.1).name)
        if (res.1.dev d).device_type = "switch" ∨ (res.1.dev d).device_type = "hub" then
          let rest := broadcastOut d i pid res.1 refs
          (rest.1, true, ev :: rest.2.2)
        else
          (res.1, true, [ev])
      else
        broadcastOut d i pid res.1 refs
    else broadcastOut d i pid s refs

/-- The drain loop of `Interface.process_outgoing_packets`
(device.py 79-104), processing the dequeued ids in FIFO order: TTL is
decremented first; only if the packet survives is the hop recorded and
the broadcast attempted; a packet with no successful hand-off is
dropped with `"No active next hop"`. -/
def processOutList (d i : Nat) : Net → List Nat → Net × List (Nat × String)
  | s, [] => (s, [])
  | s, pid :: rest =>
    let dres := decrement_ttl s pid
    if dres.2 then
      let s2 := add_hop dres.1 pid (dres.1.dev d).name
      let bres := broadcastOut d i pid s2 ((s2.iface (d, i)).connected)
      let s4 := if bres.2.1 then bres.1 else mark_dropped bres.1 pid "No active next hop"
      let rres := processOutList d i s4 rest
      (rres.1, bres.2.2 ++ rres.2)
    else
      processOutList d i dres.1 rest

/-- `Interface.process_outgoing_packets` (device.py 79-104).  The loop
dequeues until the queue is empty; nothing enqueues into this outgoing
queue while it drains (hand-offs go to `incoming` queues), so draining
a snapshot of the queue is the same. -/
def process_outgoing_packets (s : Net) (d i : Nat) : Net × List (Nat × String) :=
  let q := (s.iface (d, i)).outgoing
  let s0 := s.updIface d i fun f => { f with outgoing := [] }
  processOutList d i s0 q

/-- The switch flood loop of `Device.forward_packet_from_interface`
(device.py 236-241): `send_packet` on every interface other than the
arrival one that is up and has a nonempty neighbor list. -/
def switchFlood (d : Nat) (src : Option Nat) (pid : Nat) :
    Net → List Nat → Net × Bool
  | s, [] => (s, false)
  | s, j :: js =>
    let f := s.iface (d, j)
    if some j ≠ src ∧ f.is_up ∧ f.connected ≠ [] then
      let res := iface_send_packet s (d, j) pid
      let rest := switchFlood d src pid res.1 js
      (rest.1, res.2 || rest.2)
    else switchFlood d src pid s js

/-- Inner neighbor scan of the routed branch (device.py 254-258): as
soon as a connected neighbor's address equals the route's next hop,
`send_packet` on this interface; a failed send keeps scanning. -/
def routeNeighborScan (d j pid : Nat) (nh : String) :
    Net → List (Nat × Nat) → Net × Bool
  | s, [] => (s, false)
  | s, ref :: refs =>
    if (s.iface ref).ip_address = some nh then
      let res := iface_send_packet s (d, j) pid
      if res.2 then (res.1, true)
      else routeNeighborScan d j pid nh res.1 refs
    else routeNeighborScan d j pid nh s refs

/-- Outer interface scan of the routed branch (device.py 251-258). -/
def routeIfaceScan (d : Nat) (src : Option Nat) (pid : Nat) (nh : String) :
    Net → List Nat → Net × Bool
  | s, [] => (s, false)
  | s, j :: js =>
    let f := s.iface (d, j)
    if some j ≠ src ∧ f.is_up then
      let res := routeNeighborScan d j pid nh s f.connected
      if res.2 then (res.1, true) else routeIfaceScan d src pid nh res.1 js
    else routeIfaceScan d src pid nh s js

/-- Fallback scan (device.py 261-265): first up interface other than
the arrival one with a connected neighbor takes the packet. -/
def fallbackScan (d : Nat) (src : Option Nat) (pid : Nat) :
    Net → List Nat → Net × Bool
  | s, [] => (s, false)
  | s, j :: js =>
    let f := s.iface (d, j)
    if some j ≠ src ∧ f.is_up ∧ f.connected ≠ [] then
      let res := iface_send_packet s (d, j) pid
      if res.2 then (res.1, true) else fallbackScan d src pid res.1 js
    else fallbackScan d src pid s js

/-- The routed branch of `Device.forward_packet_from_interface`
(device.py 247-265): look the destination up in the AVL route index;
on a hit, try to send toward the route's next hop; otherwise (or when
that fails) fall back to the first willing interface. -/
def routeOrFallback (s : Net) (d : Nat) (src : Option Nat) (pid : Nat) :
    Net × Bool :=
  match (s.dev d).routing_table.lookup (s.pkt pid).destination_ip with
  | some route =>
    let ra := routeIfaceScan d src pid route.next_hop s
      (List.range (s.dev d).interfaces.length)
    if ra.2 then ra
    else fallbackScan d src pid ra.1 (List.range (s.dev d).interfaces.length)
  | none => fallbackScan d src pid s (List.range (s.dev d).interfaces.length)

/-- `Device.forward_packet_from_interface` (device.py 215-270), with
`src = some i` for the arrival interface (`None` for a fresh send).
Policies first (`block`, then `ttl-min` — Python compares the packet's
TTL with the policy value, coercing `True` to 1); then the flood branch
for `device_type == "switch"` only; otherwise the routed branch with
the AVL lookup and the fallback scan; a packet nobody accepted is
dropped with `"No route to destination"`. -/
def forward_packet_from_interface (s : Net) (d : Nat) (src : Option Nat)
    (pid : Nat) : Net × Bool :=
  let dev := s.dev d
  if ¬dev.is_online then (s, false)
  else
    let p := s.pkt pid
    let pol := dev.prefix_trie.get_inherited_policies p.destination_ip
    if (dictGet pol "block").isSome then
      let s1 := mark_dropped s pid "Blocked by policy"
      (log_error s1 d "PolicyBlock" ("Packet blocked by policy for " ++ p.destination_ip),
       false)
    else if (match dictGet pol "ttl-min" with
             | some v => decide (p.ttl < v.toInt)
             | none => false) then
      let s1 := mark_dropped s pid "TTL below minimum"
      (log_error s1 d "PolicyTTL" "TTL below minimum", false)
    else
      let res :=
        if dev.device_type = "switch" then
          switchFlood d src pid s (List.range dev.interfaces.length)
        else routeOrFallback s d src pid
      if res.2 then
        (res.1.updDev d (fun v => { v with packets_forwarded := v.packets_forwarded + 1 }),
         true)
      else
        let s2 := mark_dropped res.1 pid "No route to destination"
        (log_error s2 d "RoutingError" ("No route to " ++ p.destination_ip), false)

/-- `Device.forward_packet` (device.py 211-213). -/
def forward_packet (s : Net) (d pid : Nat) : Net × Bool :=
  forward_packet_from_interface s d none pid

/-- The drain loop of `Interface.process_incoming_packets`
(device.py 106-123): a packet whose destination equals this interface's
(truthy) address is delivered and pushed on the device's message
history; anything else is handed to `forward_packet_from_interface`. -/
def processInList (d i : Nat) : Net → List Nat → Net × List Nat
  | s, [] => (s, [])
  | s, pid :: rest =>
    let isMine : Bool :=
      match (s.iface (d, i)).ip_address with
      | some a => a ≠ "" && (s.pkt pid).destination_ip == a
      | none => false
    if isMine then
      let s1 := mark_delivered s pid
      let s2 := s1.updDev d fun v => { v with message_history := pid :: v.message_history }
      let rres := processInList d i s2 rest
      (rres.1, pid :: rres.2)
    else
      let fres := forward_packet_from_interface s d (some i) pid
      processInList d i fres.1 rest

/-- `Interface.process_incoming_packets` (device.py 106-123). -/
def process_incoming_packets (s : Net) (d i : Nat) : Net × List Nat :=
  let q := (s.iface (d, i)).incoming
  let s0 := s.updIface d i fun f => { f with incoming := [] }
  processInList d i s0 q

/-- The interface loop of `Device.process_all_interfaces`
(device.py 282-291): per up interface, outgoing first, then incoming;
`packets_received` grows by the number of delivered packets. -/
def processIfaceList (d : Nat) : Net → List Nat → Net × List (Nat × String) × List Nat
  | s, [] => (s, [], [])
  | s, j :: js =>
    if (s.iface (d, j)).is_up then
      let ores := process_outgoing_packets s d j
      let ires := process_incoming_packets ores.1 d j
      let s3 := ires.1.updDev d fun v =>
        { v with packets_received := v.packets_received + ires.2.length }
      let rres := processIfaceList d s3 js
      (rres.1, ores.2 ++ rres.2.1, ires.2 ++ rres.2.2)
    else processIfaceList d s js

/-- `Device.process_all_interfaces` (device.py 272-293). -/
def process_all_interfaces (s : Net) (d : Nat) :
    Net × List (Nat × String) × List Nat :=
  if ¬(s.dev d).is_online then (s, [], [])
  else processIfaceList d s (List.range (s.dev d).interfaces.length)

/-! ## Concrete states used by the claim checks -/

/-- C2: routers `A — B`; packet 0 sits in `A`'s only outgoing queue with
TTL 1 and an existing hop trace `["B"]`. -/
def c2net : Net :=
  { devices :=
      [⟨"A", "router", true, [⟨"g0", none, true, [(1, 0)], [0], []⟩],
         [], 0, 0, 0, AVLTree.empty, TrieNode.empty, []⟩,
       ⟨"B", "router", true, [⟨"e0", some "9.9.9.9", true, [(0, 0)], [], []⟩],
         [], 0, 0, 0, AVLTree.empty, TrieNode.empty, []⟩],
    packets := [⟨"9.9.9.9", "7.7.7.7", "hi", 1, 1, ["B"], false, false, none⟩] }

/-- C6: switch `S` holds packet 0 in the outgoing queues of both of its
interfaces at once (Python appends the same `Packet` object to several
queues); the only neighbor interface is down, so every hand-off fails. -/
def c6net : Net :=
  { devices :=
      [⟨"S", "switch", true,
         [⟨"b", none, true, [(1, 0)], [0], []⟩,
          ⟨"c", none, true, [(1, 0)], [0], []⟩],
         [], 0, 0, 0, AVLTree.empty, TrieNode.empty, []⟩,
       ⟨"D", "router", true, [⟨"d0", none, false, [], [], []⟩],
         [], 0, 0, 0, AVLTree.empty, TrieNode.empty, []⟩],
    packets := [⟨"1.1.1.1", "2.2.2.2", "x", 5, 5, [], false, false, none⟩] }

/-- C5 counterexample: hub `H` with three up, connected interfaces; the
packet arrived on interface 0 and matches no route. -/
def c5net : Net :=
  { devices :=
      [⟨"H", "hub", true,
         [⟨"a", some "10.0.0.1", true, [(1, 0)], [], []⟩,
          ⟨"b", none, true, [(2, 0)], [], []⟩,
          ⟨"c", none, true, [(3, 0)], [], []⟩],
         [], 0, 0, 0, AVLTree.empty, TrieNode.empty, []⟩,
       ⟨"N1", "router", true, [⟨"e0", some "10.0.0.2", true, [(0, 0)], [], []⟩],
         [], 0, 0, 0, AVLTree.empty, TrieNode.empty, []⟩,
       ⟨"N2", "router", true, [⟨"e0", some "10.0.0.3", true, [(0, 1)], [], []⟩],
         [], 0, 0, 0, AVLTree.empty, TrieNode.empty, []⟩,
       ⟨"N3", "router", true, [⟨"e0", some "10.0.0.4", true, [(0, 2)], [], []⟩],
         [], 0, 0, 0, AVLTree.empty, TrieNode.empty, []⟩],
    packets := [⟨"10.0.0.2", "99.0.0.1", "x", 5, 5, [], false, false, none⟩] }

/-- C5 witness: the same topology with `device_type = "switch"`. -/
def c5swnet : Net :=
  { devices :=
      [⟨"W", "switch", true,
         [⟨"a", some "10.0.0.1", true, [(1, 0)], [], []⟩,
          ⟨"b", none, true, [(2, 0)], [], []⟩,
          ⟨"c", none, true, [(3, 0)], [], []⟩],
         [], 0, 0, 0, AVLTree.empty, TrieNode.empty, []⟩,
       ⟨"N1", "router", true, [⟨"e0", some "10.0.0.2", true, [(0, 0)], [], []⟩],
         [], 0, 0, 0, AVLTree.empty, TrieNode.empty, []⟩,
       ⟨"N2", "router", true, [⟨"e0", some "10.0.0.3", true, [(0, 1)], [], []⟩],
         [], 0, 0, 0, AVLTree.empty, TrieNode.empty, []⟩,
       ⟨"N3", "router", true, [⟨"e0", some "10.0.0.4", true, [(0, 2)], [], []⟩],
         [], 0, 0, 0, AVLTree.empty, TrieNode.empty, []⟩],
    packets := [⟨"10.0.0.2", "99.0.0.1", "x", 5, 5, [], false, false, none⟩] }

/-- C4: a route index with the containing route `"10.10.0.0"/16` in the
left subtree of the lexicographically larger, non-containing root
`"10.10.1.0"/24`. -/
def c4tree : AVLTree :=
  (AVLTree.empty.insert "10.10.1.0" "255.255.255.0" "B" 1).insert
    "10.10.0.0" "255.255.0.0" "A" 1

/-- C8: the spec's two `set_policy` calls on a fresh trie. -/
def c8trie : TrieNode :=
  (TrieNode.empty.set_policy "10.0.0.0" "255.255.0.0" "ttl-min"
    (.int 3)).set_policy "10.0.2.0" "255.255.255.0" "block" (.bool true)

/-- C1: seven distinct keys in insertion order, then an eighth. -/
def c1keys7 : List (String × Nat) :=
  [("a", 1), ("b", 2), ("c", 3), ("d", 4), ("e", 5), ("f", 6), ("g", 7)]

def c1keys8 : List (String × Nat) := c1keys7 ++ [("h", 8)]

/-- The order-4 tree the first seven inserts build: a single full leaf. -/
def c1t7 : BTree :=
  ⟨.mk ["a", "b", "c", "d", "e", "f", "g"] [1, 2, 3, 4, 5, 6, 7] [] true,
   4, 1, 1, 0, 0⟩

/-- C9: seven entries with one key, values giving the insertion order. -/
def c9dup7 : List (String × Nat) :=
  [("k", 1), ("k", 2), ("k", 3), ("k", 4), ("k", 5), ("k", 6), ("k", 7)]

/-- The order-4 tree the seven duplicate inserts build. -/
def c9t7 : BTree :=
  ⟨.mk ["k", "k", "k", "k", "k", "k", "k"] [1, 2, 3, 4, 5, 6, 7] [] true,
   4, 1, 1, 0, 0⟩

/-! ## State-access lemmas for the network embedding -/

theorem getD_set {α : Type _} (l : List α) (i j : Nat) (a d : α) :
    (l.set i a).getD j d = if j = i ∧ i < l.length then a else l.getD j d := by
  by_cases hji : j = i
  · subst hji
    by_cases hlt : j < l.length
    · simp [List.getD_eq_getElem?_getD, List.getElem?_set_self hlt, hlt]
    · rw [List.set_eq_of_length_le (by omega)]
      simp [hlt]
  · simp [List.getD_eq_getElem?_getD, List.getElem?_set_ne (Ne.symm hji), hji]

@[simp] theorem dev_updPkt (s : Net) (pid : Nat) (g : Packet → Packet) (d : Nat) :
    (s.updPkt pid g).dev d = s.dev d := rfl

@[simp] theorem iface_updPkt (s : Net) (pid : Nat) (g : Packet → Packet)
    (r : Nat × Nat) : (s.updPkt pid g).iface r = s.iface r := rfl

@[simp] theorem pkt_updDev (s : Net) (d : Nat) (g : NDevice → NDevice) (q : Nat) :
    (s.updDev d g).pkt q = s.pkt q := rfl

@[simp] theorem pkt_updIface (s : Net) (d j : Nat) (g : Iface → Iface) (q : Nat) :
    (s.updIface d j g).pkt q = s.pkt q := rfl

theorem pkt_updPkt (s : Net) (pid : Nat) (g : Packet → Packet) (q : Nat) :
    (s.updPkt pid g).pkt q =
      if q = pid ∧ pid < s.packets.length then g (s.pkt pid) else s.pkt q := by
  unfold Net.updPkt Net.pkt
  exact getD_set _ _ _ _ _

theorem dev_updDev (s : Net) (d : Nat) (g : NDevice → NDevice) (q : Nat) :
    (s.updDev d g).dev q =
      if q = d ∧ d < s.devices.length then g (s.dev d) else s.dev q := by
  unfold Net.updDev Net.dev
  exact getD_set _ _ _ _ _

theorem dev_updIface (s : Net) (d j : Nat) (g : Iface → Iface) (q : Nat) :
    (s.updIface d j g).dev q =
      if q = d ∧ d < s.devices.length then
        { s.dev d with interfaces :=
            (s.dev d).interfaces.set j (g ((s.dev d).interfaces.getD j defaultIface)) }
      else s.dev q := by
  unfold Net.updIface
  exact dev_updDev _ _ _ _

theorem iface_updIface (s : Net) (d j : Nat) (g : Iface → Iface) (r : Nat × Nat) :
    (s.updIface d j g).iface r =
      if r.1 = d ∧ d < s.devices.length ∧ r.2 = j ∧
          j < (s.dev d).interfaces.length then
        g (s.iface (d, j)) else s.iface r := by
  unfold Net.iface
  rw [dev_updIface]
  rcases r with ⟨rd, rj⟩
  by_cases h1 : rd = d ∧ d < s.devices.length
  · obtain ⟨rfl, h2⟩ := h1
    rw [if_pos ⟨rfl, h2⟩]
    dsimp only
    rw [getD_set]
    by_cases h3 : rj = j ∧ j < (s.dev rd).interfaces.length
    · rw [if_pos h3, if_pos ⟨rfl, h2, h3.1, h3.2⟩]
    · rw [if_neg h3, if_neg (by tauto)]
  · rw [if_neg h1, if_neg (by tauto)]

theorem devices_length_updDev (s : Net) (d : Nat) (g : NDevice → NDevice) :
    (s.updDev d g).devices.length = s.devices.length := by
  unfold Net.updDev
  exact List.length_set _ _ _

theorem devices_length_updIface (s : Net) (d j : Nat) (g : Iface → Iface) :
    (s.updIface d j g).devices.length = s.devices.length :=
  devices_length_updDev _ _ _

/-- Fields of a device other than `interfaces` are stable under an
interface update (and the interface count is preserved). -/
theorem dev_updIface_stable (s : Net) (d j : Nat) (g : Iface → Iface) (q : Nat) :
    ((s.updIface d j g).dev q).name = (s.dev q).name ∧
    ((s.updIface d j g).dev q).device_type = (s.dev q).device_type ∧
    ((s.updIface d j g).dev q).is_online = (s.dev q).is_online ∧
    ((s.updIface d j g).dev q).interfaces.length = (s.dev q).interfaces.length ∧
    ((s.updIface d j g).dev q).routing_table = (s.dev q).routing_table ∧
    ((s.updIface d j g).dev q).prefix_trie = (s.dev q).prefix_trie := by
  rw [dev_updIface]
  split_ifs with h
  · obtain ⟨rfl, -⟩ := h
    exact ⟨rfl, rfl, rfl, List.length_set _ _ _, rfl, rfl⟩
  · exact ⟨rfl, rfl, rfl, rfl, rfl, rfl⟩

/-! ## Packet preservation and flag monotonicity -/

/-- Terminal flags only ever go from unset to set between two states:
`s'` keeps every `dropped`/`delivered` flag that `s` already has. -/
def flagsLe (s s' : Net) : Prop :=
  ∀ q : Nat,
    ((s.pkt q).dropped = true → (s'.pkt q).dropped = true) ∧
    ((s.pkt q).delivered = true → (s'.pkt q).delivered = true)

theorem flagsLe_refl (s : Net) : flagsLe s s := fun _ => ⟨id, id⟩

theorem flagsLe_trans {s t u : Net} (h1 : flagsLe s t) (h2 : flagsLe t u) :
    flagsLe s u := fun q =>
  ⟨fun h => (h2 q).1 ((h1 q).1 h), fun h => (h2 q).2 ((h1 q).2 h)⟩

theorem flagsLe_updPkt {s : Net} {pid : Nat} {g : Packet → Packet}
    (h1 : (s.pkt pid).dropped = true → (g (s.pkt pid)).dropped = true)
    (h2 : (s.pkt pid).delivered = true → (g (s.pkt pid)).delivered = true) :
    flagsLe s (s.updPkt pid g) := by
  intro q
  rw [pkt_updPkt]
  split_ifs with h
  · obtain ⟨rfl, -⟩ := h
    exact ⟨h1, h2⟩
  · exact ⟨id, id⟩

theorem flagsLe_updDev (s : Net) (d : Nat) (g : NDevice → NDevice) :
    flagsLe s (s.updDev d g) := fun _ => ⟨id, id⟩

theorem flagsLe_updIface (s : Net) (d j : Nat) (g : Iface → Iface) :
    flagsLe s (s.updIface d j g) := fun _ => ⟨id, id⟩

theorem flagsLe_add_hop (s : Net) (pid : Nat) (n : String) :
    flagsLe s (add_hop s pid n) :=
  flagsLe_updPkt (fun h => h) (fun h => h)

theorem flagsLe_mark_dropped (s : Net) (pid : Nat) (reason : String) :
    flagsLe s (mark_dropped s pid reason) :=
  flagsLe_updPkt (fun _ => rfl) (fun h => h)

theorem flagsLe_mark_delivered (s : Net) (pid : Nat) :
    flagsLe s (mark_delivered s pid) :=
  flagsLe_updPkt (fun h => h) (fun _ => rfl)

theorem flagsLe_decrement_ttl (s : Net) (pid : Nat) :
    flagsLe s (decrement_ttl s pid).1 := by
  unfold decrement_ttl
  dsimp only
  split_ifs with h
  · exact flagsLe_updPkt (fun _ => rfl) (fun h' => h')
  · exact flagsLe_updPkt (fun h' => h') (fun h' => h')

theorem flagsLe_log_error (s : Net) (d : Nat) (et msg : String) :
    flagsLe s (log_error s d et msg) :=
  flagsLe_updDev _ _ _

/-- The broadcast loop of outgoing processing never touches the packet
heap (it only enqueues ids into incoming queues). -/
theorem pkt_broadcastOut (d i pid : Nat) :
    ∀ (refs : List (Nat × Nat)) (s : Net),
      (broadcastOut d i pid s refs).1.packets = s.packets := by
  intro refs
  induction refs with
  | nil => exact fun s => rfl
  | cons ref refs ih =>
    intro s
    rw [broadcastOut]
    dsimp only
    split_ifs with h1 h2 h3
    · rw [ih]
      unfold iface_receive_packet
      split_ifs <;> rfl
    · unfold iface_receive_packet
      split_ifs <;> rfl
    · rw [ih]
      unfold iface_receive_packet
      split_ifs <;> rfl
    · exact ih s

theorem pkt_switchFlood (d : Nat) (src : Option Nat) (pid : Nat) :
    ∀ (js : List Nat) (s : Net),
      (switchFlood d src pid s js).1.packets = s.packets := by
  intro js
  induction js with
  | nil => exact fun s => rfl
  | cons j js ih =>
    intro s
    rw [switchFlood]
    dsimp only
    split_ifs with h1
    · rw [ih]
      unfold iface_send_packet
      split_ifs <;> rfl
    · exact ih s

theorem pkt_routeNeighborScan (d j pid : Nat) (nh : String) :
    ∀ (refs : List (Nat × Nat)) (s : Net),
      (routeNeighborScan d j pid nh s refs).1.packets = s.packets := by
  intro refs
  induction refs with
  | nil => exact fun s => rfl
  | cons ref refs ih =>
    intro s
    rw [routeNeighborScan]
    dsimp only
    split_ifs with h1 h2
    · unfold iface_send_packet at h2 ⊢
      split_ifs <;> rfl
    · rw [ih]
      unfold iface_send_packet
      split_ifs <;> rfl
    · exact ih s

theorem pkt_routeIfaceScan (d : Nat) (src : Option Nat) (pid : Nat) (nh : String) :
    ∀ (js : List Nat) (s : Net),
      (routeIfaceScan d src pid nh s js).1.packets = s.packets := by
  intro js
  induction js with
  | nil => exact fun s => rfl
  | cons j js ih =>
    intro s
    rw [routeIfaceScan]
    dsimp only
    split_ifs with h1 h2
    · exact pkt_routeNeighborScan _ _ _ _ _ _
    · rw [ih, pkt_routeNeighborScan]
    · exact ih s

theorem pkt_fallbackScan (d : Nat) (src : Option Nat) (pid : Nat) :
    ∀ (js : List Nat) (s : Net),
      (fallbackScan d src pid s js).1.packets = s.packets := by
  intro js
  induction js with
  | nil => exact fun s => rfl
  | cons j js ih =>
    intro s
    rw [fallbackScan]
    dsimp only
    split_ifs with h1 h2
    · unfold iface_send_packet at h2 ⊢
      split_ifs <;> rfl
    · rw [ih]
      unfold iface_send_packet
      split_ifs <;> rfl
    · exact ih s

theorem flagsLe_of_packets_eq {s s' : Net} (h : s'.packets = s.packets) :
    flagsLe s s' := by
  intro q
  unfold Net.pkt
  rw [h]
  exact ⟨id, id⟩

theorem pkt_routeOrFallback (s : Net) (d : Nat) (src : Option Nat) (pid : Nat) :
    (routeOrFallback s d src pid).1.packets = s.packets := by
  unfold routeOrFallback
  cases (s.dev d).routing_table.lookup (s.pkt pid).destination_ip with
  | some route =>
    dsimp only
    split_ifs
    · exact pkt_routeIfaceScan _ _ _ _ _ _
    · rw [pkt_fallbackScan, pkt_routeIfaceScan]
  | none => exact pkt_fallbackScan _ _ _ _ _

set_option maxHeartbeats 1600000 in
/-- `forward_packet_from_interface` never clears a terminal flag. -/
theorem flagsLe_forward (s : Net) (d : Nat) (src : Option Nat) (pid : Nat) :
    flagsLe s (forward_packet_from_interface s d src pid).1 := by
  unfold forward_packet_from_interface
  dsimp only
  split_ifs
  · exact flagsLe_trans (flagsLe_mark_dropped _ _ _) (flagsLe_log_error _ _ _ _)
  · exact flagsLe_trans (flagsLe_mark_dropped _ _ _) (flagsLe_log_error _ _ _ _)
  · exact flagsLe_trans (flagsLe_of_packets_eq (pkt_switchFlood _ _ _ _ _))
      (flagsLe_updDev _ _ _)
  · exact flagsLe_trans (flagsLe_of_packets_eq (pkt_switchFlood _ _ _ _ _))
      (flagsLe_trans (flagsLe_mark_dropped _ _ _) (flagsLe_log_error _ _ _ _))
  · exact flagsLe_trans (flagsLe_of_packets_eq (pkt_routeOrFallback _ _ _ _))
      (flagsLe_updDev _ _ _)
  · exact flagsLe_trans (flagsLe_of_packets_eq (pkt_routeOrFallback _ _ _ _))
      (flagsLe_trans (flagsLe_mark_dropped _ _ _) (flagsLe_log_error _ _ _ _))
  · exact flagsLe_refl s

theorem flagsLe_processOutList (d i : Nat) :
    ∀ (q : List Nat) (s : Net), flagsLe s (processOutList d i s q).1 := by
  intro q
  induction q with
  | nil => exact fun s => flagsLe_refl s
  | cons pid rest ih =>
    intro s
    rw [processOutList]
    dsimp only
    split_ifs with h1 h2
    · exact flagsLe_trans (flagsLe_decrement_ttl _ _)
        (flagsLe_trans (flagsLe_add_hop _ _ _)
          (flagsLe_trans (flagsLe_of_packets_eq (pkt_broadcastOut _ _ _ _ _)) (ih _)))
    · exact flagsLe_trans (flagsLe_decrement_ttl _ _)
        (flagsLe_trans (flagsLe_add_hop _ _ _)
          (flagsLe_trans (flagsLe_of_packets_eq (pkt_broadcastOut _ _ _ _ _))
            (flagsLe_trans (flagsLe_mark_dropped _ _ _) (ih _))))
    · exact flagsLe_trans (flagsLe_decrement_ttl _ _) (ih _)

theorem flagsLe_process_outgoing (s : Net) (d i : Nat) :
    flagsLe s (process_outgoing_packets s d i).1 :=
  flagsLe_trans (flagsLe_updIface _ _ _ _) (flagsLe_processOutList _ _ _ _)

theorem flagsLe_processInList (d i : Nat) :
    ∀ (q : List Nat) (s : Net), flagsLe s (processInList d i s q).1 := by
  intro q
  induction q with
  | nil => exact fun s => flagsLe_refl s
  | cons pid rest ih =>
    intro s
    rw [processInList]
    dsimp only
    split_ifs with h1
    · exact flagsLe_trans (flagsLe_mark_delivered _ _)
        (flagsLe_trans (flagsLe_updDev _ _ _) (ih _))
    · exact flagsLe_trans (flagsLe_forward _ _ _ _) (ih _)

theorem flagsLe_process_incoming (s : Net) (d i : Nat) :
    flagsLe s (process_incoming_packets s d i).1 :=
  flagsLe_trans (flagsLe_updIface _ _ _ _) (flagsLe_processInList _ _ _ _)

theorem flagsLe_processIfaceList (d : Nat) :
    ∀ (js : List Nat) (s : Net), flagsLe s (processIfaceList d s js).1 := by
  intro js
  induction js with
  | nil => exact fun s => flagsLe_refl s
  | cons j js ih =>
    intro s
    rw [processIfaceList]
    dsimp only
    split_ifs with h1
    · exact flagsLe_trans (flagsLe_process_outgoing _ _ _)
        (flagsLe_trans (flagsLe_process_incoming _ _ _)
          (flagsLe_trans (flagsLe_updDev _ _ _) (ih _)))
    · exact ih s

theorem flagsLe_process_all (s : Net) (d : Nat) :
    flagsLe s (process_all_interfaces s d).1 := by
  unfold process_all_interfaces
  split_ifs with h
  · exact flagsLe_processIfaceList _ _ _
  · exact flagsLe_refl s

/-! ## TTL-expiry behavior of outgoing-queue processing (claim C2) -/

theorem pkt_updPkt_ne {s : Net} {pid0 pid : Nat} (h : pid ≠ pid0)
    (g : Packet → Packet) : (s.updPkt pid0 g).pkt pid = s.pkt pid := by
  rw [pkt_updPkt, if_neg (by tauto)]

theorem pkt_updPkt_self {s : Net} {pid : Nat} (h : pid < s.packets.length)
    (g : Packet → Packet) : (s.updPkt pid g).pkt pid = g (s.pkt pid) := by
  rw [pkt_updPkt, if_pos ⟨rfl, h⟩]

theorem packets_length_updPkt (s : Net) (pid : Nat) (g : Packet → Packet) :
    (s.updPkt pid g).packets.length = s.packets.length :=
  List.length_set _ _ _

theorem pkt_decrement_ne {s : Net} {pid0 pid : Nat} (h : pid ≠ pid0) :
    (decrement_ttl s pid0).1.pkt pid = s.pkt pid := by
  unfold decrement_ttl
  dsimp only
  split_ifs <;> exact pkt_updPkt_ne h _

theorem packets_length_decrement (s : Net) (pid0 : Nat) :
    (decrement_ttl s pid0).1.packets.length = s.packets.length := by
  unfold decrement_ttl
  dsimp only
  split_ifs <;> exact packets_length_updPkt _ _ _

/-- Broadcasting some other packet never changes how often `pid` sits
in any incoming queue. -/
theorem count_broadcastOut (d i pid0 pid : Nat) (hne : pid0 ≠ pid) :
    ∀ (refs : List (Nat × Nat)) (s : Net) (r : Nat × Nat),
      (((broadcastOut d i pid0 s refs).1.iface r).incoming).count pid =
        ((s.iface r).incoming).count pid := by
  intro refs
  induction refs with
  | nil => exact fun s r => rfl
  | cons ref refs ih =>
    intro s r
    have hrecv : ∀ r', (((iface_receive_packet s ref pid0).1.iface r').incoming).count pid =
        ((s.iface r').incoming).count pid := by
      intro r'
      unfold iface_receive_packet
      split_ifs with hok
      · dsimp only
        rw [iface_updIface]
        split_ifs with hmatch
        · obtain ⟨a, b⟩ := r'
          obtain ⟨h1, -, h2, -⟩ := hmatch
          dsimp only at h1 h2
          subst h1
          subst h2
          dsimp only
          rw [List.count_append]
          simp [List.count_cons, hne, Ne.symm hne]
        · rfl
      · rfl
    rw [broadcastOut]
    dsimp only
    split_ifs with h1 h2 h3
    · rw [ih, hrecv]
    · exact hrecv r
    · rw [ih, hrecv]
    · exact ih s r

set_option maxHeartbeats 1600000 in
/-- Draining an outgoing queue that contains a packet whose TTL is
exhausted (≤ 1 before the decrement): the packet ends dropped with
reason `"TTL expired"`, its hop trace is untouched, and no incoming
queue ever receives it — the drop happens before the send is
attempted.  Entries for other packets leave it alone as well. -/
theorem processOutList_ttl_expired (d i pid : Nat) :
    ∀ (q : List Nat) (s : Net),
      pid < s.packets.length →
      (s.pkt pid).ttl ≤ 1 →
      ((processOutList d i s q).1.pkt pid).route_trace =
          (s.pkt pid).route_trace ∧
      ((processOutList d i s q).1.pkt pid).ttl ≤ 1 ∧
      (pid ∈ q → ((processOutList d i s q).1.pkt pid).dropped = true ∧
        ((processOutList d i s q).1.pkt pid).drop_reason = some "TTL expired") ∧
      (pid ∉ q →
        ((processOutList d i s q).1.pkt pid).dropped = (s.pkt pid).dropped ∧
        ((processOutList d i s q).1.pkt pid).drop_reason =
          (s.pkt pid).drop_reason) ∧
      (∀ r : Nat × Nat, (((processOutList d i s q).1.iface r).incoming).count pid =
        ((s.iface r).incoming).count pid) ∧
      (processOutList d i s q).1.packets.length = s.packets.length := by
  intro q
  induction q with
  | nil =>
    intro s hlen httl
    exact ⟨rfl, httl, by simp, fun _ => ⟨rfl, rfl⟩, fun r => rfl, rfl⟩
  | cons pid0 rest ih =>
    intro s hlen httl
    rw [processOutList]
    dsimp only
    by_cases hp : pid0 = pid
    · subst hp
      -- the entry is our packet: TTL hits 0, immediate drop, no hop
      have hok : (decrement_ttl s pid0).2 = false := by
        unfold decrement_ttl
        dsimp only
        rw [if_pos (by omega)]
      have hif : ∀ r, (decrement_ttl s pid0).1.iface r = s.iface r := by
        intro r
        unfold decrement_ttl
        dsimp only
        split_ifs <;> rfl
      have hlen1 : (decrement_ttl s pid0).1.packets.length = s.packets.length :=
        packets_length_decrement s pid0
      have hpkt1 : (decrement_ttl s pid0).1.pkt pid0 =
          { s.pkt pid0 with
            ttl := (s.pkt pid0).ttl - 1,
            dropped := true,
            drop_reason := some "TTL expired" } := by
        unfold decrement_ttl
        dsimp only
        rw [if_pos (by omega)]
        dsimp only
        exact pkt_updPkt_self hlen _
      rw [hok, if_neg Bool.false_ne_true]
      obtain ⟨ht, httl', hin, hout, hcnt, hplen⟩ :=
        ih ((decrement_ttl s pid0).1) (by omega) (by rw [hpkt1]; dsimp only; omega)
      refine ⟨?_, httl', fun _ => ?_,
        fun habs => absurd (List.mem_cons_self pid0 rest) habs,
        fun r => by rw [hcnt r, hif r], by rw [hplen, hlen1]⟩
      · rw [ht, hpkt1]
      · by_cases hmem : pid0 ∈ rest
        · exact hin hmem
        · obtain ⟨h1, h2⟩ := hout hmem
          rw [h1, h2, hpkt1]
          exact ⟨rfl, rfl⟩
    · -- some other packet: our packet and its queue counts are untouched
      have hne : pid ≠ pid0 := fun hh => hp hh.symm
      set s1 := (decrement_ttl s pid0).1 with hs1eq
      have hs1pkt : s1.pkt pid = s.pkt pid := pkt_decrement_ne hne
      have hs1len : s1.packets.length = s.packets.length :=
        packets_length_decrement s pid0
      have hs1iface : ∀ r, s1.iface r = s.iface r := by
        intro r
        rw [hs1eq]
        unfold decrement_ttl
        dsimp only
        split_ifs <;> rfl
      cases hok : (decrement_ttl s pid0).2 with
      | false =>
        rw [if_neg Bool.false_ne_true]
        obtain ⟨ht, httl', hin, hout, hcnt, hplen⟩ :=
          ih s1 (by omega) (by rw [hs1pkt]; exact httl)
        refine ⟨by rw [ht, hs1pkt], httl', fun hmem => ?_, fun hmem => ?_,
          fun r => by rw [hcnt r, hs1iface], by omega⟩
        · rcases List.mem_cons.mp hmem with rfl | hmem'
          · exact absurd rfl hp
          · exact hin hmem'
        · have hmem' : pid ∉ rest := fun hh => hmem (List.mem_cons_of_mem _ hh)
          obtain ⟨h1, h2⟩ := hout hmem'
          rw [h1, h2, hs1pkt]
          exact ⟨rfl, rfl⟩
      | true =>
        rw [if_pos rfl]
        dsimp only
        -- the hop append and the broadcast concern `pid0`, not `pid`
        have hs2pkt : (add_hop s1 pid0 ((s1.dev d).name)).pkt pid = s.pkt pid := by
          unfold add_hop
          rw [pkt_updPkt_ne hne, hs1pkt]
        have hs2len : (add_hop s1 pid0 ((s1.dev d).name)).packets.length =
            s.packets.length := by
          unfold add_hop
          rw [packets_length_updPkt, hs1len]
        have hs2iface : ∀ r, (add_hop s1 pid0 ((s1.dev d).name)).iface r = s.iface r := by
          intro r
          unfold add_hop
          rw [iface_updPkt, hs1iface]
        cases hbr : broadcastOut d i pid0 (add_hop s1 pid0 ((s1.dev d).name))
            ((add_hop s1 pid0 ((s1.dev d).name)).iface (d, i)).connected with
        | mk s3 sentevs =>
          dsimp only
          have hs3pkts : s3.packets = (add_hop s1 pid0 ((s1.dev d).name)).packets := by
            have := pkt_broadcastOut d i pid0
              (((add_hop s1 pid0 ((s1.dev d).name)).iface (d, i)).connected)
              (add_hop s1 pid0 ((s1.dev d).name))
            rw [hbr] at this
            exact this
          have hs3pkt : s3.pkt pid = s.pkt pid := by
            unfold Net.pkt
            rw [hs3pkts]
            exact hs2pkt
          have hs3len : s3.packets.length = s.packets.length := by
            rw [hs3pkts, hs2len]
          have hs3cnt : ∀ r, ((s3.iface r).incoming).count pid =
              ((s.iface r).incoming).count pid := by
            intro r
            have := count_broadcastOut d i pid0 pid hp
              (((add_hop s1 pid0 ((s1.dev d).name)).iface (d, i)).connected)
              (add_hop s1 pid0 ((s1.dev d).name)) r
            rw [hbr] at this
            dsimp only at this
            rw [this, hs2iface]
          set s4 := if sentevs.1 then s3 else mark_dropped s3 pid0 "No active next hop" with hs4
          have hs4pkt : s4.pkt pid = s.pkt pid := by
            rw [hs4]
            split_ifs
            · exact hs3pkt
            · unfold mark_dropped
              rw [pkt_updPkt_ne hne]
              exact hs3pkt
          have hs4len : s4.packets.length = s.packets.length := by
            rw [hs4]
            split_ifs
            · exact hs3len
            · unfold mark_dropped
              rw [packets_length_updPkt]
              exact hs3len
          have hs4cnt : ∀ r, ((s4.iface r).incoming).count pid =
              ((s.iface r).incoming).count pid := by
            intro r
            rw [hs4]
            split_ifs
            · exact hs3cnt r
            · unfold mark_dropped
              rw [iface_updPkt]
              exact hs3cnt r
          obtain ⟨ht, httl', hin, hout, hcnt, hplen⟩ :=
            ih s4 (by omega) (by rw [hs4pkt]; exact httl)
          refine ⟨by rw [ht, hs4pkt], httl', fun hmem => ?_, fun hmem => ?_,
            fun r => by rw [hcnt r, hs4cnt r], by omega⟩
          · rcases List.mem_cons.mp hmem with rfl | hmem'
            · exact absurd rfl hp
            · exact hin hmem'
          · have hmem' : pid ∉ rest := fun hh => hmem (List.mem_cons_of_mem _ hh)
            obtain ⟨h1, h2⟩ := hout hmem'
            rw [h1, h2, hs4pkt]
            exact ⟨rfl, rfl⟩

/-! ## AVL balance: helper lemmas -/

namespace RTree

@[simp] theorem realHeight_nil : realHeight .nil = 0 := rfl

@[simp] theorem realHeight_node {p m nh : String} {mt h : Nat} {l r : RTree} :
    realHeight (.node p m nh mt h l r) = 1 + max (realHeight l) (realHeight r) := rfl

@[simp] theorem avl_nil : Avl .nil := trivial

theorem avl_node_iff {p m nh : String} {mt h : Nat} {l r : RTree} :
    Avl (.node p m nh mt h l r) ↔
      Avl l ∧ Avl r ∧ h = 1 + max (realHeight l) (realHeight r) ∧
        realHeight l ≤ realHeight r + 1 ∧ realHeight r ≤ realHeight l + 1 :=
  Iff.rfl

theorem get_height_eq {t : RTree} (h : Avl t) : get_height t = realHeight t := by
  cases t with
  | nil => rfl
  | node p m nh mt ht l r => exact h.2.2.1

theorem update_height_eq {p m nh : String} {mt h : Nat} {l r : RTree}
    (hl : Avl l) (hr : Avl r) :
    update_height (.node p m nh mt h l r) =
      .node p m nh mt (1 + max (realHeight l) (realHeight r)) l r := by
  simp [update_height, get_height_eq hl, get_height_eq hr]

theorem get_balance_node {p m nh : String} {mt h : Nat} {l r : RTree}
    (hl : Avl l) (hr : Avl r) :
    get_balance (.node p m nh mt h l r) =
      (realHeight l : Int) - (realHeight r : Int) := by
  simp [get_balance, left, right, get_height_eq hl, get_height_eq hr]

/-- `rotate_right` on a node whose left subtree is two levels taller
and not right-heavy: the result is balanced; its height is determined
by the left child's balance factor. -/
theorem rotate_right_spec {zp zm znh : String} {zmt zh : Nat} {l r : RTree}
    (hl : Avl l) (hr : Avl r)
    (hh : realHeight l = realHeight r + 2) (hb : 0 ≤ get_balance l) :
    Avl (rotate_right (.node zp zm znh zmt zh l r)) ∧
      (get_balance l = 0 →
        realHeight (rotate_right (.node zp zm znh zmt zh l r)) = realHeight r + 3) ∧
      (get_balance l ≠ 0 →
        realHeight (rotate_right (.node zp zm znh zmt zh l r)) = realHeight r + 2) := by
  match l, hl with
  | .node yp ym ynh ymt yh a b, ⟨ha, hbb, hyh, h1, h2⟩ =>
    have hbal : get_balance (.node yp ym ynh ymt yh a b) =
        (realHeight a : Int) - (realHeight b : Int) := get_balance_node ha hbb
    rw [hbal] at hb ⊢
    simp only [realHeight_node] at hh
    have hz : Avl (.node zp zm znh zmt (1 + max (realHeight b) (realHeight r)) b r) :=
      ⟨hbb, hr, rfl, by omega, by omega⟩
    have : rotate_right (.node zp zm znh zmt zh (.node yp ym ynh ymt yh a b) r) =
        .node yp ym ynh ymt
          (1 + max (realHeight a)
            (realHeight (RTree.node zp zm znh zmt (1 + max (realHeight b) (realHeight r)) b r)))
          a (.node zp zm znh zmt (1 + max (realHeight b) (realHeight r)) b r) := by
      rw [rotate_right, update_height_eq hbb hr, update_height_eq ha hz]
    rw [this]
    refine ⟨⟨ha, hz, rfl, by simp only [realHeight_node]; omega,
      by simp only [realHeight_node]; omega⟩, ?_, ?_⟩ <;>
      · intro h0
        simp only [realHeight_node] at *
        omega

/-- Mirror image of `rotate_right_spec`. -/
theorem rotate_left_spec {zp zm znh : String} {zmt zh : Nat} {l r : RTree}
    (hl : Avl l) (hr : Avl r)
    (hh : realHeight r = realHeight l + 2) (hb : get_balance r ≤ 0) :
    Avl (rotate_left (.node zp zm znh zmt zh l r)) ∧
      (get_balance r = 0 →
        realHeight (rotate_left (.node zp zm znh zmt zh l r)) = realHeight l + 3) ∧
      (get_balance r ≠ 0 →
        realHeight (rotate_left (.node zp zm znh zmt zh l r)) = realHeight l + 2) := by
  match r, hr with
  | .node yp ym ynh ymt yh a b, ⟨ha, hbb, hyh, h1, h2⟩ =>
    have hbal : get_balance (.node yp ym ynh ymt yh a b) =
        (realHeight a : Int) - (realHeight b : Int) := get_balance_node ha hbb
    rw [hbal] at hb ⊢
    simp only [realHeight_node] at hh
    have hz : Avl (.node zp zm znh zmt (1 + max (realHeight l) (realHeight a)) l a) :=
      ⟨hl, ha, rfl, by omega, by omega⟩
    have : rotate_left (.node zp zm znh zmt zh l (.node yp ym ynh ymt yh a b)) =
        .node yp ym ynh ymt
          (1 + max
            (realHeight (RTree.node zp zm znh zmt (1 + max (realHeight l) (realHeight a)) l a))
            (realHeight b))
          (.node zp zm znh zmt (1 + max (realHeight l) (realHeight a)) l a) b := by
      rw [rotate_left, update_height_eq hl ha, update_height_eq hz hbb]
    rw [this]
    refine ⟨⟨hz, hbb, rfl, by simp only [realHeight_node]; omega,
      by simp only [realHeight_node]; omega⟩, ?_, ?_⟩ <;>
      · intro h0
        simp only [realHeight_node] at *
        omega

/-- `rotate_left_right` on a node whose left subtree is two levels
taller and left-heavy's balance is negative: balanced result of height
`realHeight r + 2`. -/
theorem rotate_left_right_spec {zp zm znh : String} {zmt zh : Nat} {l r : RTree}
    (hl : Avl l) (hr : Avl r)
    (hh : realHeight l = realHeight r + 2) (hb : get_balance l < 0) :
    Avl (rotate_left_right (.node zp zm znh zmt zh l r)) ∧
      realHeight (rotate_left_right (.node zp zm znh zmt zh l r)) =
        realHeight r + 2 := by
  match l, hl with
  | .node yp ym ynh ymt yh a b, ⟨ha, hbb, hyh, h1, h2⟩ =>
    have hbal : get_balance (.node yp ym ynh ymt yh a b) =
        (realHeight a : Int) - (realHeight b : Int) := get_balance_node ha hbb
    rw [hbal] at hb
    simp only [realHeight_node] at hh
    match b, hbb with
    | .nil, _ =>
      simp only [realHeight_nil] at hb
      omega
    | .node bp bm bnh bmt bh b1 b2, ⟨hb1, hb2, hbh, hb3, hb4⟩ =>
      simp only [realHeight_node] at hb hh h1 h2
      have hz' : Avl (.node yp ym ynh ymt (1 + max (realHeight a) (realHeight b1)) a b1) :=
        ⟨ha, hb1, rfl, by omega, by omega⟩
      have e1 : rotate_left
          (.node yp ym ynh ymt yh a (.node bp bm bnh bmt bh b1 b2)) =
          .node bp bm bnh bmt
            (1 + max (1 + max (realHeight a) (realHeight b1)) (realHeight b2))
            (.node yp ym ynh ymt (1 + max (realHeight a) (realHeight b1)) a b1) b2 := by
        rw [rotate_left, update_height_eq ha hb1]
        rw [update_height_eq hz' hb2]
        simp only [realHeight_node]
      have hz'' : Avl (.node zp zm znh zmt (1 + max (realHeight b2) (realHeight r)) b2 r) :=
        ⟨hb2, hr, rfl, by omega, by omega⟩
      have e2 : rotate_left_right
          (.node zp zm znh zmt zh
            (.node yp ym ynh ymt yh a (.node bp bm bnh bmt bh b1 b2)) r) =
          .node bp bm bnh bmt
            (1 + max (1 + max (realHeight a) (realHeight b1))
              (1 + max (realHeight b2) (realHeight r)))
            (.node yp ym ynh ymt (1 + max (realHeight a) (realHeight b1)) a b1)
            (.node zp zm znh zmt (1 + max (realHeight b2) (realHeight r)) b2 r) := by
        rw [rotate_left_right, e1, rotate_right, update_height_eq hb2 hr,
          update_height_eq hz' hz'']
        simp only [realHeight_node]
      rw [e2]
      refine ⟨⟨hz', hz'', rfl, by simp only [realHeight_node]; omega,
        by simp only [realHeight_node]; omega⟩, by simp only [realHeight_node]; omega⟩

/-- Mirror image of `rotate_left_right_spec`. -/
theorem rotate_right_left_spec {zp zm znh : String} {zmt zh : Nat} {l r : RTree}
    (hl : Avl l) (hr : Avl r)
    (hh : realHeight r = realHeight l + 2) (hb : 0 < get_balance r) :
    Avl (rotate_right_left (.node zp zm znh zmt zh l r)) ∧
      realHeight (rotate_right_left (.node zp zm znh zmt zh l r)) =
        realHeight l + 2 := by
  match r, hr with
  | .node yp ym ynh ymt yh a b, ⟨ha, hbb, hyh, h1, h2⟩ =>
    have hbal : get_balance (.node yp ym ynh ymt yh a b) =
        (realHeight a : Int) - (realHeight b : Int) := get_balance_node ha hbb
    rw [hbal] at hb
    simp only [realHeight_node] at hh
    match a, ha with
    | .nil, _ =>
      simp only [realHeight_nil] at hb
      omega
    | .node ap am anh amt ah a1 a2, ⟨ha1, ha2, hah, ha3, ha4⟩ =>
      simp only [realHeight_node] at hb hh h1 h2
      have hz' : Avl (.node yp ym ynh ymt (1 + max (realHeight a2) (realHeight b)) a2 b) :=
        ⟨ha2, hbb, rfl, by omega, by omega⟩
      have e1 : rotate_right
          (.node yp ym ynh ymt yh (.node ap am anh amt ah a1 a2) b) =
          .node ap am anh amt
            (1 + max (realHeight a1) (1 + max (realHeight a2) (realHeight b)))
            a1 (.node yp ym ynh ymt (1 + max (realHeight a2) (realHeight b)) a2 b) := by
        rw [rotate_right, update_height_eq ha2 hbb]
        rw [update_height_eq ha1 hz']
        simp only [realHeight_node]
      have hz'' : Avl (.node zp zm znh zmt (1 + max (realHeight l) (realHeight a1)) l a1) :=
        ⟨hl, ha1, rfl, by omega, by omega⟩
      have e2 : rotate_right_left
          (.node zp zm znh zmt zh l
            (.node yp ym ynh ymt yh (.node ap am anh amt ah a1 a2) b)) =
          .node ap am anh amt
            (1 + max (1 + max (realHeight l) (realHeight a1))
              (1 + max (realHeight a2) (realHeight b)))
            (.node zp zm znh zmt (1 + max (realHeight l) (realHeight a1)) l a1)
            (.node yp ym ynh ymt (1 + max (realHeight a2) (realHeight b)) a2 b) := by
        rw [rotate_right_left, e1, rotate_left, update_height_eq hl ha1,
          update_height_eq hz'' hz']
        simp only [realHeight_node]
      rw [e2]
      refine ⟨⟨hz'', hz', rfl, by simp only [realHeight_node]; omega,
        by simp only [realHeight_node]; omega⟩, by simp only [realHeight_node]; omega⟩

/-- None of the four insert-rebalancing conditions fires on a node
whose balance is within `[-1, 1]`. -/
theorem insert_rebal_id {k : String × String × Nat} {t : RTree}
    (h1 : ¬ 1 < get_balance t) (h2 : ¬ get_balance t < -1) :
    insert_rebal k t = t := by
  simp only [insert_rebal]
  split_ifs with hc1 hc2 hc3 hc4
  · exact absurd hc1.1 h1
  · exact absurd hc2.1 h2
  · exact absurd hc3.1 h1
  · exact absurd hc4.1 h2
  · rfl

theorem insert_rebal_eq_rotate_right {k : String × String × Nat} {t : RTree}
    (hbal : 1 < get_balance t) (hcmp : compare_routes k t.left.rootKey < 0) :
    insert_rebal k t = rotate_right t := by
  simp only [insert_rebal]
  rw [if_pos ⟨hbal, hcmp⟩]

theorem insert_rebal_eq_rotate_left {k : String × String × Nat} {t : RTree}
    (hbal : get_balance t < -1) (hcmp : 0 < compare_routes k t.right.rootKey) :
    insert_rebal k t = rotate_left t := by
  simp only [insert_rebal]
  rw [if_neg (fun hc => absurd hc.1 (by omega)), if_pos ⟨hbal, hcmp⟩]

theorem insert_rebal_eq_rotate_left_right {k : String × String × Nat} {t : RTree}
    (hbal : 1 < get_balance t) (hcmp : 0 < compare_routes k t.left.rootKey) :
    insert_rebal k t = rotate_left_right t := by
  simp only [insert_rebal]
  rw [if_neg (fun hc => absurd hc.2 (by omega)),
    if_neg (fun hc => absurd hc.1 (by omega)), if_pos ⟨hbal, hcmp⟩]

theorem insert_rebal_eq_rotate_right_left {k : String × String × Nat} {t : RTree}
    (hbal : get_balance t < -1) (hcmp : compare_routes k t.right.rootKey < 0) :
    insert_rebal k t = rotate_right_left t := by
  simp only [insert_rebal]
  rw [if_neg (fun hc => absurd hc.1 (by omega)),
    if_neg (fun hc => absurd hc.2 (by omega)),
    if_neg (fun hc => absurd hc.1 (by omega)), if_pos ⟨hbal, hcmp⟩]

set_option maxHeartbeats 1600000 in
/-- Main preservation lemma for `_insert_node`: on an AVL tree the
result is an AVL tree, the height grows by at most one, and when it
does grow the new root leans exactly toward the side the key went
(the fact the key-comparison-driven rotation choice relies on). -/
theorem insert_node_spec (p m nh : String) (mt : Nat) :
    ∀ t : RTree, t.Avl →
      (insert_node t p m nh mt).Avl ∧
      realHeight t ≤ realHeight (insert_node t p m nh mt) ∧
      realHeight (insert_node t p m nh mt) ≤ realHeight t + 1 ∧
      (realHeight (insert_node t p m nh mt) = realHeight t + 1 →
        t = .nil ∨
        (get_balance (insert_node t p m nh mt) = 1 ∧
          compare_routes (p, m, mt) (insert_node t p m nh mt).rootKey < 0) ∨
        (get_balance (insert_node t p m nh mt) = -1 ∧
          0 < compare_routes (p, m, mt) (insert_node t p m nh mt).rootKey)) := by
  intro t
  induction t with
  | nil =>
    intro _
    exact ⟨⟨trivial, trivial, by simp, by simp, by simp⟩,
      by simp [insert_node], by simp [insert_node], fun _ => Or.inl rfl⟩
  | node np nm nnh nmt h l r ihl ihr =>
    intro ht
    obtain ⟨hl, hr, hst, hb1, hb2⟩ := ht
    rcases lt_trichotomy (compare_routes (p, m, mt) (np, nm, nmt)) 0 with hc | hc | hc
    · -- the key goes left
      obtain ⟨hal', hge, hle, hgrow⟩ := ihl hl
      have e : insert_node (.node np nm nnh nmt h l r) p m nh mt =
          insert_rebal (p, m, mt)
            (.node np nm nnh nmt
              (1 + max (realHeight (insert_node l p m nh mt)) (realHeight r))
              (insert_node l p m nh mt) r) := by
        simp only [insert_node]
        rw [if_pos hc, update_height_eq hal' hr]
      rw [e]
      have hbn : get_balance
          (RTree.node np nm nnh nmt
            (1 + max (realHeight (insert_node l p m nh mt)) (realHeight r))
            (insert_node l p m nh mt) r) =
          (realHeight (insert_node l p m nh mt) : Int) - (realHeight r : Int) :=
        get_balance_node hal' hr
      by_cases hbal2 : realHeight (insert_node l p m nh mt) = realHeight r + 2
      · -- the left subtree grew two above the right one: a rotation fires
        have hgrown : realHeight (insert_node l p m nh mt) = realHeight l + 1 := by
          omega
        rcases hgrow hgrown with rfl | ⟨hbal1, hcmp1⟩ | ⟨hbalm1, hcmpg⟩
        · simp only [realHeight_nil] at hgrown
          omega
        · -- LL: single right rotation
          rw [insert_rebal_eq_rotate_right (by omega) hcmp1]
          obtain ⟨havl, _, hnz⟩ := rotate_right_spec hal' hr hbal2 (by omega)
          have hres := hnz (by omega)
          refine ⟨havl, ?_, ?_, ?_⟩ <;> simp only [realHeight_node] <;> omega
        · -- LR: double rotation
          rw [insert_rebal_eq_rotate_left_right (by omega) hcmpg]
          obtain ⟨havl, hres⟩ := rotate_left_right_spec hal' hr hbal2 (by omega)
          refine ⟨havl, ?_, ?_, ?_⟩ <;> simp only [realHeight_node] <;> omega
      · -- still balanced: no rotation
        rw [insert_rebal_id (by omega) (by omega)]
        refine ⟨⟨hal', hr, rfl, by omega, by omega⟩,
          by simp only [realHeight_node]; omega,
          by simp only [realHeight_node]; omega, ?_⟩
        intro hg
        simp only [realHeight_node] at hg
        refine Or.inr (Or.inl ⟨?_, hc⟩)
        rw [hbn]
        omega
    · -- exact key match: in-place overwrite, no structural change
      have e : insert_node (.node np nm nnh nmt h l r) p m nh mt =
          .node np nm nh mt h l r := by
        simp only [insert_node]
        rw [if_neg (by omega), if_neg (by omega)]
      rw [e]
      exact ⟨⟨hl, hr, hst, hb1, hb2⟩, by simp only [realHeight_node]; omega,
        by simp only [realHeight_node]; omega,
        fun hg => absurd hg (by simp only [realHeight_node]; omega)⟩
    · -- the key goes right
      obtain ⟨hal', hge, hle, hgrow⟩ := ihr hr
      have e : insert_node (.node np nm nnh nmt h l r) p m nh mt =
          insert_rebal (p, m, mt)
            (.node np nm nnh nmt
              (1 + max (realHeight l) (realHeight (insert_node r p m nh mt)))
              l (insert_node r p m nh mt)) := by
        simp only [insert_node]
        rw [if_neg (by omega), if_pos hc, update_height_eq hl hal']
      rw [e]
      have hbn : get_balance
          (RTree.node np nm nnh nmt
            (1 + max (realHeight l) (realHeight (insert_node r p m nh mt)))
            l (insert_node r p m nh mt)) =
          (realHeight l : Int) - (realHeight (insert_node r p m nh mt) : Int) :=
        get_balance_node hl hal'
      by_cases hbal2 : realHeight (insert_node r p m nh mt) = realHeight l + 2
      · have hgrown : realHeight (insert_node r p m nh mt) = realHeight r + 1 := by
          omega
        rcases hgrow hgrown with rfl | ⟨hbal1, hcmp1⟩ | ⟨hbalm1, hcmpg⟩
        · simp only [realHeight_nil] at hgrown
          omega
        · -- RL: double rotation
          rw [insert_rebal_eq_rotate_right_left (by omega) hcmp1]
          obtain ⟨havl, hres⟩ := rotate_right_left_spec hl hal' hbal2 (by omega)
          refine ⟨havl, ?_, ?_, ?_⟩ <;> simp only [realHeight_node] <;> omega
        · -- RR: single left rotation
          rw [insert_rebal_eq_rotate_left (by omega) hcmpg]
          obtain ⟨havl, _, hnz⟩ := rotate_left_spec hl hal' hbal2 (by omega)
          have hres := hnz (by omega)
          refine ⟨havl, ?_, ?_, ?_⟩ <;> simp only [realHeight_node] <;> omega
      · rw [insert_rebal_id (by omega) (by omega)]
        refine ⟨⟨hl, hal', rfl, by omega, by omega⟩,
          by simp only [realHeight_node]; omega,
          by simp only [realHeight_node]; omega, ?_⟩
        intro hg
        simp only [realHeight_node] at hg
        refine Or.inr (Or.inr ⟨?_, hc⟩)
        rw [hbn]
        omega

/-- None of the four delete-rebalancing conditions fires on a node
whose balance is within `[-1, 1]`. -/
theorem delete_rebal_id {t : RTree}
    (h1 : ¬ 1 < get_balance t) (h2 : ¬ get_balance t < -1) :
    delete_rebal t = t := by
  simp only [delete_rebal]
  split_ifs with hc1 hc2 hc3 hc4
  · exact absurd hc1.1 h1
  · exact absurd hc2.1 h1
  · exact absurd hc3.1 h2
  · exact absurd hc4.1 h2
  · rfl

theorem delete_rebal_eq_rotate_right {t : RTree}
    (hbal : 1 < get_balance t) (hch : 0 ≤ get_balance t.left) :
    delete_rebal t = rotate_right t := by
  simp only [delete_rebal]
  rw [if_pos ⟨hbal, hch⟩]

theorem delete_rebal_eq_rotate_left_right {t : RTree}
    (hbal : 1 < get_balance t) (hch : get_balance t.left < 0) :
    delete_rebal t = rotate_left_right t := by
  simp only [delete_rebal]
  rw [if_neg (fun hc => absurd hc.2 (by omega)), if_pos ⟨hbal, hch⟩]

theorem delete_rebal_eq_rotate_left {t : RTree}
    (hbal : get_balance t < -1) (hch : get_balance t.right ≤ 0) :
    delete_rebal t = rotate_left t := by
  simp only [delete_rebal]
  rw [if_neg (fun hc => absurd hc.1 (by omega)),
    if_neg (fun hc => absurd hc.1 (by omega)), if_pos ⟨hbal, hch⟩]

theorem delete_rebal_eq_rotate_right_left {t : RTree}
    (hbal : get_balance t < -1) (hch : 0 < get_balance t.right) :
    delete_rebal t = rotate_right_left t := by
  simp only [delete_rebal]
  rw [if_neg (fun hc => absurd hc.1 (by omega)),
    if_neg (fun hc => absurd hc.1 (by omega)),
    if_neg (fun hc => absurd hc.2 (by omega)), if_pos ⟨hbal, hch⟩]

/-- Rebalancing a freshly re-heighted node whose children are AVL and
whose height difference is at most 2 (the situation after one child
shrank by one in `_delete_node`): the result is AVL, its height is
`max` or `max + 1` of the children's heights, and exactly `max + 1`
when the children were still balanced. -/
theorem delete_rebal_node_spec {p m nh : String} {mt : Nat} {l r : RTree}
    (hl : Avl l) (hr : Avl r)
    (hd1 : realHeight l ≤ realHeight r + 2) (hd2 : realHeight r ≤ realHeight l + 2) :
    Avl (delete_rebal
        (.node p m nh mt (1 + max (realHeight l) (realHeight r)) l r)) ∧
      max (realHeight l) (realHeight r) ≤
        realHeight (delete_rebal
          (.node p m nh mt (1 + max (realHeight l) (realHeight r)) l r)) ∧
      realHeight (delete_rebal
          (.node p m nh mt (1 + max (realHeight l) (realHeight r)) l r)) ≤
        1 + max (realHeight l) (realHeight r) ∧
      (realHeight l ≤ realHeight r + 1 → realHeight r ≤ realHeight l + 1 →
        realHeight (delete_rebal
          (.node p m nh mt (1 + max (realHeight l) (realHeight r)) l r)) =
          1 + max (realHeight l) (realHeight r)) := by
  have hbn : get_balance
      (RTree.node p m nh mt (1 + max (realHeight l) (realHeight r)) l r) =
      (realHeight l : Int) - (realHeight r : Int) := get_balance_node hl hr
  by_cases hll : realHeight l = realHeight r + 2
  · -- left two taller: right rotation or LR, by the left child's balance
    by_cases hlb : 0 ≤ get_balance l
    · rw [delete_rebal_eq_rotate_right (by omega) (by simpa [left] using hlb)]
      obtain ⟨havl, hz, hnz⟩ := rotate_right_spec hl hr hll hlb
      by_cases h0 : get_balance l = 0
      · have := hz h0
        exact ⟨havl, by omega, by omega, fun a b => by omega⟩
      · have := hnz h0
        exact ⟨havl, by omega, by omega, fun a b => by omega⟩
    · rw [delete_rebal_eq_rotate_left_right (by omega) (by simp only [left]; omega)]
      obtain ⟨havl, hres⟩ := rotate_left_right_spec hl hr hll (by omega)
      exact ⟨havl, by omega, by omega, fun a b => by omega⟩
  · by_cases hrr : realHeight r = realHeight l + 2
    · -- right two taller: left rotation or RL, by the right child's balance
      by_cases hrb : get_balance r ≤ 0
      · rw [delete_rebal_eq_rotate_left (by omega) (by simpa [right] using hrb)]
        obtain ⟨havl, hz, hnz⟩ := rotate_left_spec hl hr hrr hrb
        by_cases h0 : get_balance r = 0
        · have := hz h0
          exact ⟨havl, by omega, by omega, fun a b => by omega⟩
        · have := hnz h0
          exact ⟨havl, by omega, by omega, fun a b => by omega⟩
      · rw [delete_rebal_eq_rotate_right_left (by omega) (by simp only [right]; omega)]
        obtain ⟨havl, hres⟩ := rotate_right_left_spec hl hr hrr (by omega)
        exact ⟨havl, by omega, by omega, fun a b => by omega⟩
    · -- still balanced: no rotation
      rw [delete_rebal_id (by omega) (by omega)]
      exact ⟨⟨hl, hr, rfl, by omega, by omega⟩,
        by simp only [realHeight_node]; omega,
        by simp only [realHeight_node]; omega,
        fun _ _ => rfl⟩

set_option maxHeartbeats 1600000 in
/-- Main preservation lemma for `_delete_node`: on an AVL tree the
result is an AVL tree whose height shrank by at most one. -/
theorem delete_node_spec :
    ∀ (t : RTree) (p m : String), t.Avl →
      (delete_node t p m).Avl ∧
      realHeight (delete_node t p m) ≤ realHeight t ∧
      realHeight t ≤ realHeight (delete_node t p m) + 1 := by
  intro t
  induction t with
  | nil => intro p m _; simp [delete_node]
  | node np nm nnh nmt h l r ihl ihr =>
    intro p m ht
    obtain ⟨hl, hr, hst, hb1, hb2⟩ := ht
    rcases lt_trichotomy (compare_routes (p, m, 0) (np, nm, 0)) 0 with hc | hc | hc
    · -- delete in the left subtree
      obtain ⟨hal', hle, hge⟩ := ihl p m hl
      have e : delete_node (.node np nm nnh nmt h l r) p m =
          delete_rebal
            (.node np nm nnh nmt
              (1 + max (realHeight (delete_node l p m)) (realHeight r))
              (delete_node l p m) r) := by
        simp only [delete_node]
        rw [if_pos hc, update_height_eq hal' hr]
      rw [e]
      obtain ⟨havl, hlow, hhigh, hexact⟩ :=
        delete_rebal_node_spec hal' hr (by omega) (by omega)
      by_cases hcase : realHeight (delete_node l p m) ≤ realHeight r + 1 ∧
          realHeight r ≤ realHeight (delete_node l p m) + 1
      · have := hexact hcase.1 hcase.2
        exact ⟨havl, by simp only [realHeight_node]; omega,
          by simp only [realHeight_node]; omega⟩
      · exact ⟨havl, by simp only [realHeight_node]; omega,
          by simp only [realHeight_node]; omega⟩
    · -- key found at this node
      rcases l with _ | ⟨lp, lm, lnh, lmt, lh, ll, lr⟩
      · -- no left child: the right child replaces the node
        have e : delete_node (.node np nm nnh nmt h .nil r) p m = r := by
          simp only [delete_node]
          rw [if_neg (by omega), if_neg (by omega)]
        rw [e]
        exact ⟨hr, by simp only [realHeight_node, realHeight_nil]; omega,
          by simp only [realHeight_node, realHeight_nil]; omega⟩
      · rcases r with _ | ⟨rp, rm, rnh, rmt, rh, rl, rr⟩
        · -- no right child: the left child replaces the node
          have e : delete_node
              (.node np nm nnh nmt h (.node lp lm lnh lmt lh ll lr) .nil) p m =
              .node lp lm lnh lmt lh ll lr := by
            simp only [delete_node]
            rw [if_neg (by omega), if_neg (by omega)]
          rw [e]
          exact ⟨hl, by simp only [realHeight_node, realHeight_nil]; omega,
            by simp only [realHeight_node, realHeight_nil]; omega⟩
        · -- two children: replace with the in-order successor
          obtain ⟨hal', hle, hge⟩ :=
            ihr (find_min (.node rp rm rnh rmt rh rl rr)).1
              (find_min (.node rp rm rnh rmt rh rl rr)).2.1 hr
          have e : delete_node
              (.node np nm nnh nmt h (.node lp lm lnh lmt lh ll lr)
                (.node rp rm rnh rmt rh rl rr)) p m =
              delete_rebal
                (.node (find_min (.node rp rm rnh rmt rh rl rr)).1
                  (find_min (.node rp rm rnh rmt rh rl rr)).2.1
                  (find_min (.node rp rm rnh rmt rh rl rr)).2.2.1
                  (find_min (.node rp rm rnh rmt rh rl rr)).2.2.2
                  (1 + max (realHeight (.node lp lm lnh lmt lh ll lr))
                    (realHeight (delete_node (.node rp rm rnh rmt rh rl rr)
                      (find_min (.node rp rm rnh rmt rh rl rr)).1
                      (find_min (.node rp rm rnh rmt rh rl rr)).2.1)))
                  (.node lp lm lnh lmt lh ll lr)
                  (delete_node (.node rp rm rnh rmt rh rl rr)
                    (find_min (.node rp rm rnh rmt rh rl rr)).1
                    (find_min (.node rp rm rnh rmt rh rl rr)).2.1)) := by
            rw [delete_node.eq_4, if_neg (by omega), if_neg (by omega)]
            simp only [update_height_eq hl hal']
          rw [e]
          obtain ⟨havl, hlow, hhigh, hexact⟩ :=
            delete_rebal_node_spec hl hal' (by omega) (by omega)
          simp only [realHeight_node] at hlow hhigh hexact hle hge hb1 hb2 ⊢
          by_cases hcase :
              1 + max (realHeight ll) (realHeight lr) ≤
                realHeight (delete_node (.node rp rm rnh rmt rh rl rr)
                  (find_min (.node rp rm rnh rmt rh rl rr)).1
                  (find_min (.node rp rm rnh rmt rh rl rr)).2.1) + 1 ∧
              realHeight (delete_node (.node rp rm rnh rmt rh rl rr)
                  (find_min (.node rp rm rnh rmt rh rl rr)).1
                  (find_min (.node rp rm rnh rmt rh rl rr)).2.1) ≤
                (1 + max (realHeight ll) (realHeight lr)) + 1
          · have := hexact hcase.1 hcase.2
            exact ⟨havl, by omega, by omega⟩
          · exact ⟨havl, by omega, by omega⟩
    · -- delete in the right subtree
      obtain ⟨hal', hle, hge⟩ := ihr p m hr
      have e : delete_node (.node np nm nnh nmt h l r) p m =
          delete_rebal
            (.node np nm nnh nmt
              (1 + max (realHeight l) (realHeight (delete_node r p m)))
              l (delete_node r p m)) := by
        simp only [delete_node]
        rw [if_neg (by omega), if_pos hc, update_height_eq hl hal']
      rw [e]
      obtain ⟨havl, hlow, hhigh, hexact⟩ :=
        delete_rebal_node_spec hl hal' (by omega) (by omega)
      by_cases hcase : realHeight l ≤ realHeight (delete_node r p m) + 1 ∧
          realHeight (delete_node r p m) ≤ realHeight l + 1
      · have := hexact hcase.1 hcase.2
        exact ⟨havl, by simp only [realHeight_node]; omega,
          by simp only [realHeight_node]; omega⟩
      · exact ⟨havl, by simp only [realHeight_node]; omega,
          by simp only [realHeight_node]; omega⟩

end RTree

/-- Inserts and deletes both preserve the AVL invariant of the root. -/
theorem applyRouteOps_avl (ops : List RouteOp) :
    ∀ t : AVLTree, t.root.Avl → (applyRouteOps t ops).root.Avl := by
  induction ops with
  | nil => exact fun t h => h
  | cons op ops ih =>
    intro t h
    cases op with
    | ins p m nh mt =>
      exact ih _ (RTree.insert_node_spec p m nh mt t.root h).1
    | del p m =>
      exact ih _ (RTree.delete_node_spec t.root p m h).1

namespace RTree

/-- The delete comparison (metric pinned to 0 on both sides) is zero
exactly on a `(prefix, mask)` match. -/
theorem compare_pm_eq_zero {p m np nm : String} :
    compare_routes (p, m, 0) (np, nm, 0) = 0 ↔ np = p ∧ nm = m := by
  unfold compare_routes
  dsimp only
  by_cases h1 : p = np
  · subst h1
    by_cases h2 : m = nm
    · subst h2
      simp
    · rw [if_neg (by simp), if_pos h2]
      constructor
      · intro h0
        split_ifs at h0 <;> omega
      · rintro ⟨-, hmm⟩
        exact absurd hmm.symm h2
  · rw [if_pos h1]
    constructor
    · intro h0
      split_ifs at h0 <;> omega
    · rintro ⟨hnp, -⟩
      exact absurd hnp.symm h1

/-- Deleting a `(prefix, mask)` pair that no node carries leaves an AVL
tree structurally unchanged (the search walks down, every re-heighting
is the identity, and no rebalancing condition fires). -/
theorem delete_node_noop : ∀ (t : RTree) (p m : String), t.Avl →
    t.containsPM p m = false → delete_node t p m = t := by
  intro t
  induction t with
  | nil => intro p m _ _; rfl
  | node np nm nnh nmt h l r ihl ihr =>
    intro p m ht hc
    obtain ⟨hl, hr, hst, hb1, hb2⟩ := ht
    simp only [containsPM, Bool.or_eq_false_iff, Bool.and_eq_false_iff,
      beq_eq_false_iff_ne] at hc
    have hcc : compare_routes (p, m, 0) (np, nm, 0) ≠ 0 := by
      intro h0
      rcases compare_pm_eq_zero.mp h0 with ⟨e1, e2⟩
      rcases hc.1.1 with hne | hne <;> exact hne (by simp [e1, e2])
    rcases lt_trichotomy (compare_routes (p, m, 0) (np, nm, 0)) 0 with hlt | heq | hgt
    · have e : delete_node (.node np nm nnh nmt h l r) p m =
          delete_rebal (update_height (.node np nm nnh nmt h (delete_node l p m) r)) := by
        simp only [delete_node]
        rw [if_pos hlt]
      rw [e, ihl p m hl hc.1.2, update_height_eq hl hr, ← hst]
      exact delete_rebal_id (by rw [get_balance_node hl hr]; omega)
        (by rw [get_balance_node hl hr]; omega)
    · exact absurd heq hcc
    · have e : delete_node (.node np nm nnh nmt h l r) p m =
          delete_rebal (update_height (.node np nm nnh nmt h l (delete_node r p m))) := by
        simp only [delete_node]
        rw [if_neg (by omega), if_pos hgt]
      rw [e, ihr p m hr hc.2, update_height_eq hl hr, ← hst]
      exact delete_rebal_id (by rw [get_balance_node hl hr]; omega)
        (by rw [get_balance_node hl hr]; omega)

/-- `_lookup_node` soundness: whatever it returns is a route of the
tree whose network contains the address. -/
theorem lookup_node_sound : ∀ (t : RTree) (ip : String) (e : RouteEntry),
    lookup_node t ip = some e →
      e ∈ in_order t ∧ ip_in_network ip e.pfx e.mask = true := by
  intro t
  induction t with
  | nil => intro ip e he; exact absurd he (by simp [lookup_node])
  | node p m nh mt h l r ihl ihr =>
    intro ip e he
    simp only [lookup_node] at he
    by_cases hin : ip_in_network ip p m
    · rw [if_pos hin] at he
      cases hrr : lookup_node r ip with
      | some e2 =>
        rw [hrr] at he
        dsimp only at he
        injection he with he2
        subst he2
        obtain ⟨hmem, hnet⟩ := ihr ip _ hrr
        refine ⟨by simp [in_order]; tauto, hnet⟩
      | none =>
        rw [hrr] at he
        dsimp only at he
        injection he with he2
        subst he2
        exact ⟨by simp [in_order], hin⟩
    · rw [if_neg hin] at he
      by_cases hlt : strLt ip p
      · rw [if_pos hlt] at he
        obtain ⟨hmem, hnet⟩ := ihl ip e he
        refine ⟨by simp [in_order]; tauto, hnet⟩
      · rw [if_neg hlt] at he
        obtain ⟨hmem, hnet⟩ := ihr ip e he
        refine ⟨by simp [in_order]; tauto, hnet⟩

/-- If no route of the tree contains the address, `_lookup_node`
returns `none`. -/
theorem lookup_node_none (t : RTree) (ip : String)
    (h : ∀ e ∈ in_order t, ip_in_network ip e.pfx e.mask = false) :
    lookup_node t ip = none := by
  cases he : lookup_node t ip with
  | none => rfl
  | some e =>
    obtain ⟨hmem, hnet⟩ := lookup_node_sound t ip e he
    rw [h e hmem] at hnet
    cases hnet

/-- If the root's network contains the address and nothing in the right
subtree does, `_lookup_node` returns the root's route. -/
theorem lookup_node_root {p m nh : String} {mt h : Nat} {l r : RTree}
    (ip : String) (hin : ip_in_network ip p m = true)
    (hr : ∀ e ∈ in_order r, ip_in_network ip e.pfx e.mask = false) :
    lookup_node (.node p m nh mt h l r) ip = some ⟨p, m, nh, mt⟩ := by
  simp only [lookup_node]
  rw [if_pos hin, lookup_node_none r ip hr]

end RTree

/-! ## Snapshot-index evaluation lemmas

`insert_non_full` is defined by well-founded recursion, so concrete
runs are evaluated through its equations. -/

theorem insert_non_full_leaf (order : Nat) (ks : List String) (vs : List Nat)
    (cs : List BTreeNode) (key : String) (value : Nat) :
    insert_non_full order (.mk ks vs cs true) key value =
      some (.mk (ks.insertIdx (descIdx ks key) key)
        (vs.insertIdx (descIdx ks key) value) cs true) := by
  rw [insert_non_full, if_pos rfl]

theorem insertPairs_cons (t : BTree) (kv : String × Nat)
    (ps : List (String × Nat)) :
    insertPairs (some t) (kv :: ps) = insertPairs (t.insert kv.1 kv.2) ps := rfl

theorem insertPairs_append (t : Option BTree) (ps qs : List (String × Nat)) :
    insertPairs t (ps ++ qs) = insertPairs (insertPairs t ps) qs := by
  simp only [insertPairs, List.foldl_append]

/-- `BTree.insert` on a tree whose root is a non-full leaf. -/
theorem insert_leaf_eval {o : Nat} {ks : List String} {vs : List Nat}
    {hh nn sp mg : Nat} {key : String} {value : Nat}
    (h : ¬(ks.length = 2 * o - 1)) :
    BTree.insert ⟨.mk ks vs [] true, o, hh, nn, sp, mg⟩ key value =
      some ⟨.mk (ks.insertIdx (descIdx ks key) key)
        (vs.insertIdx (descIdx ks key) value) [] true, o, hh, nn, sp, mg⟩ := by
  rw [BTree.insert]
  dsimp only [BTreeNode.keyCount, BTreeNode.keys]
  rw [if_neg h, insert_non_full_leaf]

/-- `BTree.insert` on a tree with a full root always raises: the root
split reads the median out of range. -/
theorem insert_full_eval (t : BTree) (key : String) (value : Nat)
    (h : t.root.keyCount = 2 * t.order - 1) :
    t.insert key value = none := by
  rw [BTree.insert, if_pos h, split_child_eq_none]

theorem c1_ins7 : insertPairs (some (BTree.mkEmpty 4)) c1keys7 = some c1t7 := by
  rw [show BTree.mkEmpty 4 = ⟨.mk [] [] [] true, 4, 1, 1, 0, 0⟩ from rfl]
  simp only [c1keys7]
  rw [insertPairs_cons, insert_leaf_eval (by decide)]
  rw [insertPairs_cons, insert_leaf_eval (by decide)]
  rw [insertPairs_cons, insert_leaf_eval (by decide)]
  rw [insertPairs_cons, insert_leaf_eval (by decide)]
  rw [insertPairs_cons, insert_leaf_eval (by decide)]
  rw [insertPairs_cons, insert_leaf_eval (by decide)]
  rw [insertPairs_cons, insert_leaf_eval (by decide)]
  rfl

theorem c1_ins8 : insertPairs (some (BTree.mkEmpty 4)) c1keys8 = none := by
  rw [show c1keys8 = c1keys7 ++ [("h", 8)] from rfl, insertPairs_append, c1_ins7]
  rw [insertPairs_cons, insert_full_eval c1t7 "h" 8 rfl]
  rfl

theorem c9_ins7 : insertPairs (some (BTree.mkEmpty 4)) c9dup7 = some c9t7 := by
  rw [show BTree.mkEmpty 4 = ⟨.mk [] [] [] true, 4, 1, 1, 0, 0⟩ from rfl]
  simp only [c9dup7]
  rw [insertPairs_cons, insert_leaf_eval (by decide)]
  rw [insertPairs_cons, insert_leaf_eval (by decide)]
  rw [insertPairs_cons, insert_leaf_eval (by decide)]
  rw [insertPairs_cons, insert_leaf_eval (by decide)]
  rw [insertPairs_cons, insert_leaf_eval (by decide)]
  rw [insertPairs_cons, insert_leaf_eval (by decide)]
  rw [insertPairs_cons, insert_leaf_eval (by decide)]
  rfl

theorem c9_ins8 :
    insertPairs (some (BTree.mkEmpty 4)) (c9dup7 ++ [("k", 8)]) = none := by
  rw [insertPairs_append, c9_ins7, insertPairs_cons, insert_full_eval c9t7 "k" 8 rfl]
  rfl

/-! ## The switch flood loop (claim C5) -/

/-- An interface that reports `is_up` exists: both indices are in range
(the out-of-range default interface is down). -/
theorem iface_in_range_of_up {s : Net} {r : Nat × Nat}
    (h : (s.iface r).is_up = true) :
    r.1 < s.devices.length ∧ r.2 < (s.dev r.1).interfaces.length := by
  by_cases h1 : r.1 < s.devices.length
  · refine ⟨h1, ?_⟩
    by_cases h2 : r.2 < (s.dev r.1).interfaces.length
    · exact h2
    · exfalso
      have he : s.iface r = defaultIface := by
        unfold Net.iface
        rw [List.getD_eq_getElem?_getD, List.getElem?_eq_none (by omega)]
        rfl
      rw [he] at h
      exact absurd h (by decide)
  · exfalso
    have hd : s.dev r.1 = defaultDevice := by
      unfold Net.dev
      rw [List.getD_eq_getElem?_getD, List.getElem?_eq_none (by omega)]
      rfl
    have he : s.iface r = defaultIface := by
      unfold Net.iface
      rw [hd]
      rfl
    rw [he] at h
    exact absurd h (by decide)

/-- `Interface.send_packet` on an up interface of an online device:
the id is appended to that outgoing queue and the send reports `True`. -/
theorem iface_send_packet_up {s : Net} {d j : Nat} {pid : Nat}
    (hup : (s.iface (d, j)).is_up = true) (hon : (s.dev d).is_online = true) :
    iface_send_packet s (d, j) pid =
      (s.updIface d j (fun f => { f with outgoing := f.outgoing ++ [pid] }),
       true) := by
  unfold iface_send_packet
  rw [if_pos ⟨hup, hon⟩]

/-- A device update that keeps the interface list leaves every
interface reading unchanged. -/
theorem iface_updDev (s : Net) (d : Nat) (g : NDevice → NDevice)
    (hg : (g (s.dev d)).interfaces = (s.dev d).interfaces) (r : Nat × Nat) :
    (s.updDev d g).iface r = s.iface r := by
  unfold Net.iface
  rw [dev_updDev]
  split_ifs with h
  · obtain ⟨h1, -⟩ := h
    rw [hg, h1]
  · rfl

/-- The switch flood loop (device.py 236-241) characterized on an
online device and a duplicate-free interface list: the packet id is
appended to the outgoing queue of exactly the listed interfaces that
are up, have a neighbor and are not the arrival interface; the loop
reports success iff at least one such interface exists; every other
interface of the network is untouched. -/
theorem switchFlood_spec (d : Nat) (src : Option Nat) (pid : Nat) :
    ∀ (js : List Nat) (s : Net), js.Nodup → (s.dev d).is_online = true →
      ((switchFlood d src pid s js).2 = true ↔
        ∃ j ∈ js, some j ≠ src ∧ (s.iface (d, j)).is_up = true ∧
          (s.iface (d, j)).connected ≠ []) ∧
      (∀ j ∈ js, some j ≠ src → (s.iface (d, j)).is_up = true →
        (s.iface (d, j)).connected ≠ [] →
        ((switchFlood d src pid s js).1.iface (d, j)).outgoing =
          (s.iface (d, j)).outgoing ++ [pid]) ∧
      (∀ r : Nat × Nat,
        (r.1 = d → r.2 ∈ js → some r.2 ≠ src → (s.iface r).is_up = true →
          (s.iface r).connected ≠ [] → False) →
        (switchFlood d src pid s js).1.iface r = s.iface r) := by
  intro js
  induction js with
  | nil =>
    intro s _ _
    exact ⟨by simp [switchFlood], by simp, fun r _ => rfl⟩
  | cons j js ih =>
    intro s hnd hon
    obtain ⟨hj, hnd2⟩ := List.nodup_cons.mp hnd
    rw [switchFlood]
    dsimp only
    by_cases hel : some j ≠ src ∧ (s.iface (d, j)).is_up = true ∧
        (s.iface (d, j)).connected ≠ []
    · rw [if_pos hel]
      obtain ⟨hsrc, hup, hconn⟩ := hel
      rw [iface_send_packet_up hup hon]
      dsimp only
      obtain ⟨hrange1, hrange2⟩ := iface_in_range_of_up hup
      set s1 := s.updIface d j
        (fun f => { f with outgoing := f.outgoing ++ [pid] }) with hs1
      have hif : ∀ r : Nat × Nat, ¬(r.1 = d ∧ r.2 = j) →
          s1.iface r = s.iface r := by
        intro r hr
        rw [hs1, iface_updIface, if_neg (by tauto)]
      have hifj : s1.iface (d, j) =
          { s.iface (d, j) with
            outgoing := (s.iface (d, j)).outgoing ++ [pid] } := by
        rw [hs1, iface_updIface, if_pos ⟨rfl, hrange1, rfl, hrange2⟩]
      have hon1 : (s1.dev d).is_online = true := by
        rw [hs1, (dev_updIface_stable s d j _ d).2.2.1, hon]
      obtain ⟨ihok, ihsent, ihfr⟩ := ih s1 hnd2 hon1
      refine ⟨?_, ?_, ?_⟩
      · simp only [Bool.true_or]
        exact ⟨fun _ => ⟨j, List.mem_cons_self j js, hsrc, hup, hconn⟩,
          fun _ => trivial⟩
      · intro j2 hj2 hsrc2 hup2 hconn2
        rcases List.mem_cons.mp hj2 with rfl | hmem
        · rw [ihfr (d, j2) (fun _ hin _ _ _ => absurd hin hj), hifj]
        · have hjj : j2 ≠ j := fun hq => hj (hq ▸ hmem)
          have he : s1.iface (d, j2) = s.iface (d, j2) :=
            hif (d, j2) (fun hc => hjj hc.2)
          rw [ihsent j2 hmem hsrc2 (by rw [he]; exact hup2)
            (by rw [he]; exact hconn2), he]
      · rintro ⟨a, b⟩ hr
        by_cases hab : a = d ∧ b = j
        · obtain ⟨rfl, rfl⟩ := hab
          exact (hr rfl (List.mem_cons_self _ _) hsrc hup hconn).elim
        · have he : s1.iface (a, b) = s.iface (a, b) := hif (a, b) hab
          have hrec : (switchFlood d src pid s1 js).1.iface (a, b) =
              s1.iface (a, b) := by
            apply ihfr
            intro h1 h2 h3 h4 h5
            rw [he] at h4 h5
            exact hr h1 (List.mem_cons_of_mem _ h2) h3 h4 h5
          rw [hrec, he]
    · rw [if_neg hel]
      obtain ⟨ihok, ihsent, ihfr⟩ := ih s hnd2 hon
      refine ⟨?_, ?_, ?_⟩
      · rw [ihok]
        constructor
        · rintro ⟨j2, hj2, hx⟩
          exact ⟨j2, List.mem_cons_of_mem _ hj2, hx⟩
        · rintro ⟨j2, hj2, hx⟩
          rcases List.mem_cons.mp hj2 with rfl | hmem
          · exact absurd hx hel
          · exact ⟨j2, hmem, hx⟩
      · intro j2 hj2 hsrc2 hup2 hconn2
        rcases List.mem_cons.mp hj2 with rfl | hmem
        · exact absurd ⟨hsrc2, hup2, hconn2⟩ hel
        · exact ihsent j2 hmem hsrc2 hup2 hconn2
      · intro r hr
        apply ihfr
        intro h1 h2 h3 h4 h5
        exact hr h1 (List.mem_cons_of_mem _ h2) h3 h4 h5

/-! ## Claim theorems -/

/-- C1 (code bug): for the order-4 snapshot index, the first seven
distinct-key inserts succeed with no split (stored height stays 1) and
`search` finds every key; the eighth insert — the one the claim says
performs the first split to height 2 — always raises `IndexError`
inside `_split_child` (`none` in the embedding), because the median
key/value is read from the already truncated lists. -/
theorem c1 :
    insertPairs (some (BTree.mkEmpty 4)) c1keys7 = some c1t7 ∧
    (c1keys7.map fun kv => c1t7.search kv.1) =
      c1keys7.map (fun kv => some kv.2) ∧
    c1t7.height = 1 ∧ c1t7.splits = 0 ∧
    insertPairs (some (BTree.mkEmpty 4)) c1keys8 = none :=
  ⟨c1_ins7, by decide, rfl, rfl, c1_ins8⟩

set_option maxHeartbeats 1600000 in
/-- C2 (corrected): a packet whose TTL is exhausted (≤ 1 on entering
the hop) that sits in an outgoing queue being drained is dropped with
reason `"TTL expired"` before any send: no incoming queue receives a
copy of it — but, contrary to the claim, the dropping device is *not*
appended to the hop trace: the trace is left exactly as it was. -/
theorem c2 (s : Net) (d i pid : Nat) (hlen : pid < s.packets.length)
    (httl : (s.pkt pid).ttl ≤ 1) (hmem : pid ∈ (s.iface (d, i)).outgoing) :
    ((process_outgoing_packets s d i).1.pkt pid).dropped = true ∧
    ((process_outgoing_packets s d i).1.pkt pid).drop_reason =
      some "TTL expired" ∧
    ((process_outgoing_packets s d i).1.pkt pid).route_trace =
      (s.pkt pid).route_trace ∧
    ∀ r : Nat × Nat,
      (((process_outgoing_packets s d i).1.iface r).incoming).count pid =
        ((s.iface r).incoming).count pid := by
  unfold process_outgoing_packets
  dsimp only
  have h0inc : ∀ r : Nat × Nat,
      ((s.updIface d i fun f => { f with outgoing := [] }).iface r).incoming =
        (s.iface r).incoming := by
    intro r
    rw [iface_updIface]
    split_ifs with hc
    · obtain ⟨h1, -, h2, -⟩ := hc
      obtain ⟨a, b⟩ := r
      dsimp only at h1 h2
      subst h1
      subst h2
      rfl
    · rfl
  obtain ⟨ht, -, hin, -, hcnt, -⟩ :=
    processOutList_ttl_expired d i pid ((s.iface (d, i)).outgoing)
      (s.updIface d i fun f => { f with outgoing := [] }) hlen httl
  obtain ⟨hdrop, hreason⟩ := hin hmem
  exact ⟨hdrop, hreason, by rw [ht, pkt_updIface], fun r => by rw [hcnt r, h0inc r]⟩

/-- C2 witness: in `c2net` the TTL-1 packet queued at `A` ends dropped
with reason `"TTL expired"`, its trace unchanged and no incoming queue
touched. -/
theorem c2_witness :
    0 < c2net.packets.length ∧ (c2net.pkt 0).ttl ≤ 1 ∧
    0 ∈ (c2net.iface (0, 0)).outgoing ∧
    (((process_outgoing_packets c2net 0 0).1.pkt 0).dropped = true ∧
     ((process_outgoing_packets c2net 0 0).1.pkt 0).drop_reason =
       some "TTL expired" ∧
     ((process_outgoing_packets c2net 0 0).1.pkt 0).route_trace =
       (c2net.pkt 0).route_trace ∧
     ∀ r : Nat × Nat,
       (((process_outgoing_packets c2net 0 0).1.iface r).incoming).count 0 =
         ((c2net.iface r).incoming).count 0) :=
  ⟨by decide, by decide, by decide,
   c2 c2net 0 0 0 (by decide) (by decide) (by decide)⟩

/-- C2 counterexample: packet 0 of `c2net` enters hop `A` with TTL 1;
it is dropped with reason `"TTL expired"` and never handed to `B`, but
`A` is not appended to its hop trace — the trace stays `["B"]`,
refuting the claim's "the device that dropped it is still appended". -/
theorem c2_counterexample :
    ((process_outgoing_packets c2net 0 0).1.pkt 0).dropped = true ∧
    ((process_outgoing_packets c2net 0 0).1.pkt 0).drop_reason =
      some "TTL expired" ∧
    (c2net.dev 0).name = "A" ∧
    ((process_outgoing_packets c2net 0 0).1.pkt 0).route_trace = ["B"] ∧
    "A" ∉ ((process_outgoing_packets c2net 0 0).1.pkt 0).route_trace ∧
    ((process_outgoing_packets c2net 0 0).1.iface (1, 0)).incoming = [] := by
  decide

/-- C3: after any sequence of route-index inserts and deletes starting
from the empty tree, every node satisfies the balance bound
`|height(left) − height(right)| ≤ 1` and the stored-height law
`height = 1 + max(height(left), height(right))` (`RTree.Avl`). -/
theorem c3 (ops : List RouteOp) :
    ((applyRouteOps AVLTree.empty ops).root).Avl :=
  applyRouteOps_avl ops AVLTree.empty trivial

/-- C4 (corrected): `_lookup_node` is sound — whatever it returns is a
route of the tree whose network contains the address — and it returns
`none` whenever no route of the tree contains the address.  The
original claim's completeness (any containing route with nothing more
specific to its right is found) fails: see `c4_counterexample`. -/
theorem c4 (t : RTree) (ip : String) :
    (∀ e : RouteEntry, t.lookup_node ip = some e →
      e ∈ t.in_order ∧ ip_in_network ip e.pfx e.mask = true) ∧
    ((∀ e ∈ t.in_order, ip_in_network ip e.pfx e.mask = false) →
      t.lookup_node ip = none) :=
  ⟨fun e he => RTree.lookup_node_sound t ip e he,
   fun h => RTree.lookup_node_none t ip h⟩

/-- C4 witness: on `c4tree` the address `10.10.1.5` is looked up to the
root route `10.10.1.0/24`, which indeed is in the tree and contains it. -/
theorem c4_witness :
    c4tree.root.lookup_node "10.10.1.5" =
      some ⟨"10.10.1.0", "255.255.255.0", "B", 1⟩ ∧
    ((⟨"10.10.1.0", "255.255.255.0", "B", 1⟩ : RouteEntry) ∈
        c4tree.root.in_order ∧
      ip_in_network "10.10.1.5" "10.10.1.0" "255.255.255.0" = true) :=
  ⟨by decide, (c4 c4tree.root "10.10.1.5").1 _ (by decide)⟩

/-- C4 counterexample: in `c4tree` exactly one route contains
`10.10.3.3` (so in particular no more-specific containing route lies to
its right in tree order), yet `lookup` returns no match: at the
non-containing root `10.10.1.0` the descent compares the address
lexicographically and goes right, away from the containing
`10.10.0.0/16` in the left subtree. -/
theorem c4_counterexample :
    (c4tree.root.in_order.filter fun e =>
      ip_in_network "10.10.3.3" e.pfx e.mask) =
      [⟨"10.10.0.0", "255.255.0.0", "A", 1⟩] ∧
    c4tree.lookup "10.10.3.3" = none := by
  exact ⟨by decide, by decide⟩

set_option maxHeartbeats 1600000 in
/-- C5 (corrected): only a device whose type is the string `"switch"`
floods (a hub takes the routed branch instead, see
`c5_counterexample`).  For an online switch that does not drop the
packet by policy, the packet is appended to the outgoing queue of
every up interface other than the arrival one that has at least one
connected neighbor, and the forward succeeds iff at least one such
interface exists. -/
theorem c5 (s : Net) (d : Nat) (src : Option Nat) (pid : Nat)
    (hon : (s.dev d).is_online = true)
    (htype : (s.dev d).device_type = "switch")
    (hblock : dictGet ((s.dev d).prefix_trie.get_inherited_policies
        (s.pkt pid).destination_ip) "block" = none)
    (httl : (match dictGet ((s.dev d).prefix_trie.get_inherited_policies
          (s.pkt pid).destination_ip) "ttl-min" with
        | some v => decide ((s.pkt pid).ttl < v.toInt)
        | none => false) = false) :
    ((forward_packet_from_interface s d src pid).2 = true ↔
      ∃ j, j < (s.dev d).interfaces.length ∧ some j ≠ src ∧
        (s.iface (d, j)).is_up = true ∧ (s.iface (d, j)).connected ≠ []) ∧
    ∀ j, j < (s.dev d).interfaces.length → some j ≠ src →
      (s.iface (d, j)).is_up = true → (s.iface (d, j)).connected ≠ [] →
      ((forward_packet_from_interface s d src pid).1.iface (d, j)).outgoing =
        (s.iface (d, j)).outgoing ++ [pid] := by
  unfold forward_packet_from_interface
  dsimp only
  rw [if_neg (not_not_intro hon), hblock]
  rw [if_neg (by simp)]
  rw [httl, if_neg Bool.false_ne_true, if_pos htype]
  obtain ⟨hok, hsent, -⟩ := switchFlood_spec d src pid
    (List.range (s.dev d).interfaces.length) s (List.nodup_range _) hon
  cases hres : (switchFlood d src pid s
      (List.range (s.dev d).interfaces.length)).2 with
  | true =>
    rw [if_pos rfl]
    dsimp only
    constructor
    · constructor
      · intro _
        obtain ⟨j, hjm, hx⟩ := hok.mp hres
        exact ⟨j, List.mem_range.mp hjm, hx⟩
      · intro _
        rfl
    · intro j hlt hsrc2 hup2 hconn2
      rw [iface_updDev _ _ _ rfl]
      exact hsent j (List.mem_range.mpr hlt) hsrc2 hup2 hconn2
  | false =>
    rw [if_neg Bool.false_ne_true]
    dsimp only
    constructor
    · constructor
      · intro h
        exact absurd h Bool.false_ne_true
      · rintro ⟨j, hlt, hx⟩
        rw [hok.mpr ⟨j, List.mem_range.mpr hlt, hx⟩] at hres
        exact absurd hres.symm Bool.false_ne_true
    · intro j hlt hsrc2 hup2 hconn2
      unfold log_error
      rw [iface_updDev _ _ _ ?hg]
      case hg => rfl
      unfold mark_dropped
      rw [iface_updPkt]
      exact hsent j (List.mem_range.mpr hlt) hsrc2 hup2 hconn2

/-- C5 witness: `c5swnet`'s switch forwards the packet that arrived on
interface 0 and queues it on both other up, connected interfaces. -/
theorem c5_witness :
    (c5swnet.dev 0).is_online = true ∧
    (c5swnet.dev 0).device_type = "switch" ∧
    (((forward_packet_from_interface c5swnet 0 (some 0) 0).2 = true ↔
        ∃ j, j < (c5swnet.dev 0).interfaces.length ∧ some j ≠ some 0 ∧
          (c5swnet.iface (0, j)).is_up = true ∧
          (c5swnet.iface (0, j)).connected ≠ []) ∧
      ∀ j, j < (c5swnet.dev 0).interfaces.length → some j ≠ some 0 →
        (c5swnet.iface (0, j)).is_up = true →
        (c5swnet.iface (0, j)).connected ≠ [] →
        ((forward_packet_from_interface c5swnet 0 (some 0) 0).1.iface
            (0, j)).outgoing =
          (c5swnet.iface (0, j)).outgoing ++ [0]) :=
  ⟨rfl, rfl, c5 c5swnet 0 (some 0) 0 rfl rfl rfl rfl⟩

/-- C5 counterexample: `c5net`'s hub has three up, connected
interfaces, so a flood from interface 0 would enqueue the packet on
both interface 1 and interface 2; instead the hub takes the routed
fallback branch — only interface 1 receives the packet, interface 2
stays empty — refuting the claim for hub devices. -/
theorem c5_counterexample :
    (c5net.dev 0).device_type = "hub" ∧
    (c5net.iface (0, 2)).is_up = true ∧
    (c5net.iface (0, 2)).connected ≠ [] ∧
    (forward_packet_from_interface c5net 0 (some 0) 0).2 = true ∧
    ((forward_packet_from_interface c5net 0 (some 0) 0).1.iface
        (0, 1)).outgoing = [0] ∧
    ((forward_packet_from_interface c5net 0 (some 0) 0).1.iface
        (0, 2)).outgoing = [] := by
  decide

/-- C6 (corrected): what the code guarantees is monotonicity, not
terminality — a device's queue processing never clears a packet's
`delivered` or `dropped` flag.  Genuine terminality fails: a dropped
packet still sitting in another queue is mutated again, see
`c6_counterexample`. -/
theorem c6 (s : Net) (d : Nat) : flagsLe s (process_all_interfaces s d).1 :=
  flagsLe_process_all s d

/-- C6 counterexample: in `c6net` the same packet object sits in two
outgoing queues of switch `S`; the first drain drops it (TTL 4, hop
`S` recorded), and the second drain mutates the already-dropped packet
again — TTL decremented to 3 and a second hop appended — refuting
"terminal once dropped". -/
theorem c6_counterexample :
    ((process_outgoing_packets c6net 0 0).1.pkt 0).dropped = true ∧
    ((process_outgoing_packets c6net 0 0).1.pkt 0).ttl = 4 ∧
    ((process_outgoing_packets c6net 0 0).1.pkt 0).route_trace = ["S"] ∧
    ((process_outgoing_packets
        (process_outgoing_packets c6net 0 0).1 0 1).1.pkt 0).ttl = 3 ∧
    ((process_outgoing_packets
        (process_outgoing_packets c6net 0 0).1 0 1).1.pkt 0).route_trace =
      ["S", "S"] := by
  decide

/-- C7: deleting a `(prefix, mask)` pair that no node of the tree
carries leaves the tree structure unchanged, over every state reachable
by inserts and deletes from the empty index (the `size` counter still
drops by one — that is claim C10's subject). -/
theorem c7 (ops : List RouteOp) (p m : String)
    (h : ((applyRouteOps AVLTree.empty ops).root).containsPM p m = false) :
    ((applyRouteOps AVLTree.empty ops).delete p m).root =
      (applyRouteOps AVLTree.empty ops).root :=
  RTree.delete_node_noop _ p m (applyRouteOps_avl ops AVLTree.empty trivial) h

/-- C7 witness: deleting the absent `192.168.0.0/16` from a one-route
index leaves the root untouched. -/
theorem c7_witness :
    ((applyRouteOps AVLTree.empty
        [RouteOp.ins "10.0.0.0" "255.0.0.0" "1.1.1.1" 1]).root).containsPM
      "192.168.0.0" "255.255.0.0" = false ∧
    ((applyRouteOps AVLTree.empty
        [RouteOp.ins "10.0.0.0" "255.0.0.0" "1.1.1.1" 1]).delete
        "192.168.0.0" "255.255.0.0").root =
      (applyRouteOps AVLTree.empty
        [RouteOp.ins "10.0.0.0" "255.0.0.0" "1.1.1.1" 1]).root :=
  ⟨by decide, c7 [RouteOp.ins "10.0.0.0" "255.0.0.0" "1.1.1.1" 1]
    "192.168.0.0" "255.255.0.0" (by decide)⟩

/-- C8: starting from the empty policy trie, after
`set_policy("10.0.0.0","255.255.0.0","ttl-min",3)` and
`set_policy("10.0.2.0","255.255.255.0","block",true)`, the inherited
policies of `10.0.2.5` are exactly ttl-min 3 and block true (in dict
insertion order) and those of `10.0.9.9` are exactly ttl-min 3. -/
theorem c8 :
    c8trie.get_inherited_policies "10.0.2.5" =
      [("ttl-min", PVal.int 3), ("block", PVal.bool true)] ∧
    c8trie.get_inherited_policies "10.0.9.9" = [("ttl-min", PVal.int 3)] :=
  ⟨by decide, by decide⟩

/-- C9 (code bug): duplicate keys are indeed not special-cased —
seven inserts with one key keep all seven entries and the ordered
traversal lists them in insertion order (values 1..7); but the claim
quantifies over *every* state already containing the key, and on a
full node it fails: the eighth duplicate insert triggers the
always-raising split instead of adding an entry. -/
theorem c9 :
    insertPairs (some (BTree.mkEmpty 4)) c9dup7 = some c9t7 ∧
    c9t7.in_order_traversal = c9dup7 ∧
    insertPairs (some (BTree.mkEmpty 4)) (c9dup7 ++ [("k", 8)]) = none :=
  ⟨c9_ins7, by decide, c9_ins8⟩

/-- C10: every route-index insert bumps the size counter by exactly
one, also on an in-place overwrite of an existing key; every delete
decrements it with a floor at zero (`Nat` truncated subtraction); and
the counter can diverge from the node count: two inserts of the same
key leave size 2 with a single node in the tree. -/
theorem c10 (t : AVLTree) (p m nh : String) (mt : Nat) (p2 m2 : String) :
    (t.insert p m nh mt).size = t.size + 1 ∧
    (t.delete p2 m2).size = t.size - 1 ∧
    ((AVLTree.empty.insert "10.0.0.0" "255.0.0.0" "1.1.1.1" 7).insert
        "10.0.0.0" "255.0.0.0" "2.2.2.2" 7).size = 2 ∧
    (((AVLTree.empty.insert "10.0.0.0" "255.0.0.0" "1.1.1.1" 7).insert
        "10.0.0.0" "255.0.0.0" "2.2.2.2" 7).root).in_order =
      [⟨"10.0.0.0", "255.0.0.0", "2.2.2.2", 7⟩] :=
  ⟨rfl, rfl, by decide, by decide⟩

end RouterCli
